import Mathlib

/-!
Verification development for the libweave schema-driven command and state
engine: the property type engine (`object_schema.cc`), the command
dictionary and the state manager.  JSON values, property types and the
parsing/serialization pipeline are shallowly embedded; operations present in
`src/libweave/src/commands/object_schema.cc` are transcribed from that
source, while operations whose implementation files are absent from the
source excerpt (prop_types.cc, command_dictionary.cc, state_manager.cc) are
modelled from the specification, as marked in their doc comments.
-/

namespace Weave

/-- A dynamic JSON-like value, one constructor per `base::Value` type tag
(TYPE_NULL, TYPE_BOOLEAN, TYPE_INTEGER, TYPE_DOUBLE, TYPE_STRING,
TYPE_BINARY, TYPE_LIST, TYPE_DICTIONARY).  Doubles carry a rational payload;
only their type tag and equality matter to the engine. -/
inductive JsonValue where
  | null
  | boolean (b : Bool)
  | integer (n : Int)
  | double (d : Rat)
  | string (s : String)
  | binary
  | list (items : List JsonValue)
  | dict (entries : List (String × JsonValue))

/-- Dictionary payload of a JSON object: an association list from key to
value, in iteration order. -/
abbrev JDict := List (String × JsonValue)

/-- Key lookup in a JSON dictionary (first matching key wins), as
`base::DictionaryValue` lookup without path expansion. -/
def jlookup (k : String) : JDict → Option JsonValue
  | [] => none
  | (k', v) :: rest => if k' = k then some v else jlookup k rest

/-- `HasKey` on a JSON dictionary. -/
def hasKey (entries : JDict) (k : String) : Bool :=
  (jlookup k entries).isSome

/-- The display name of a JSON value type, as in the `type_names` table of
`ObjectSchema::PropFromJson`. -/
def jsonTypeName : JsonValue → String
  | .null => "Null"
  | .boolean _ => "Boolean"
  | .integer _ => "Integer"
  | .double _ => "Double"
  | .string _ => "String"
  | .binary => "Binary"
  | .list _ => "Array"
  | .dict _ => "Object"

mutual
/-- Structural weight of a JSON value, used as the termination measure of
the recursive parser. -/
def jweight : JsonValue → Nat
  | .null => 3
  | .boolean _ => 3
  | .integer _ => 3
  | .double _ => 3
  | .string _ => 3
  | .binary => 3
  | .list items => 3 + lweight items
  | .dict entries => 3 + dweight entries
/-- Weight of a JSON array payload. -/
def lweight : List JsonValue → Nat
  | [] => 0
  | v :: rest => 1 + jweight v + lweight rest
/-- Weight of a JSON dictionary payload. -/
def dweight : List (String × JsonValue) → Nat
  | [] => 0
  | (_, v) :: rest => 1 + jweight v + dweight rest
end

/-- Weight of the recursion-relevant entries ("properties" and "items") of a
property-definition dictionary; termination measure for the constraint
parser. -/
def rsum : JDict → Nat
  | [] => 0
  | (k, v) :: rest =>
      (if k = "properties" ∨ k = "items" then 1 + jweight v else 0) + rsum rest

/-- A structured engine error: a chain of (code, message) pairs, outermost
error first, as built by `chromeos::Error::AddTo` wrapping. -/
abbrev ErrChain := List (String × String)

/-- Wrap an error chain in a new outer error. -/
def addErr (code msg : String) (e : ErrChain) : ErrChain := (code, msg) :: e

/-- `GetCode` of the outermost error of a chain. -/
def errCode (e : ErrChain) : String := (e.headD ("", "")).1

/-- `GetInnerError()->GetCode()`: the code of the error wrapped directly by
the outermost one. -/
def innerCode (e : ErrChain) : String := ((e.drop 1).headD ("", "")).1

/-- `GetFirstError()->GetCode()`: the code of the innermost (first created)
error of the chain. -/
def firstCode (e : ErrChain) : String := (e.getLastD ("", "")).1

/-- The `ValueType` enumeration: one case per supported property kind. -/
inductive ValueType where
  | intT
  | doubleT
  | booleanT
  | stringT
  | objectT
  | arrayT
  deriving DecidableEq

/-- `PropType::GetTypeStringFromType`: the canonical JSON type name of each
kind.  Modelled from the spec: prop_types.cc is not part of the source
excerpt; names are fixed by the spec grammar and the unit tests
("integer", "number", "boolean", "string", "object", "array"). -/
def typeToString : ValueType → String
  | .intT => "integer"
  | .doubleT => "number"
  | .booleanT => "boolean"
  | .stringT => "string"
  | .objectT => "object"
  | .arrayT => "array"

/-- `PropType::GetTypeFromTypeString`: inverse of `typeToString`.  Modelled
from the spec: prop_types.cc is not part of the source excerpt. -/
def typeFromString (s : String) : Option ValueType :=
  if s = "integer" then some .intT
  else if s = "number" then some .doubleT
  else if s = "boolean" then some .booleanT
  else if s = "string" then some .stringT
  else if s = "object" then some .objectT
  else if s = "array" then some .arrayT
  else none

/-- A typed, constrained description of one property: the tagged variant of
the PropType hierarchy.  Fields:
kind; required flag; whether this type was parsed against a base schema;
the constraint keys explicitly present at parse time (in canonical order,
used by minimal-mode serialization); numeric bounds and string length
bounds (kept as raw JSON values); enum of allowed values; default value;
nested object properties together with the extra-properties flag (Object
kind); item type (Array kind). -/
inductive PropType where
  | mk (vtype : ValueType)
       (required basedOnSchema : Bool)
       (own : List String)
       (minimum maximum minLength maxLength : Option JsonValue)
       (enumVals : Option (List JsonValue))
       (defVal : Option JsonValue)
       (objProps : Option (List (String × PropType)))
       (objExtra : Bool)
       (itemType : Option PropType)

/-- Kind of a property type. -/
def PropType.vtype : PropType → ValueType
  | .mk t _ _ _ _ _ _ _ _ _ _ _ _ => t

/-- Required flag of a property type. -/
def PropType.required : PropType → Bool
  | .mk _ r _ _ _ _ _ _ _ _ _ _ _ => r

/-- Whether the type was parsed against a base schema. -/
def PropType.basedOnSchema : PropType → Bool
  | .mk _ _ b _ _ _ _ _ _ _ _ _ _ => b

/-- Constraint keys explicitly present at parse time. -/
def PropType.own : PropType → List String
  | .mk _ _ _ o _ _ _ _ _ _ _ _ _ => o

/-- The "minimum" constraint, as a raw JSON value. -/
def PropType.minimum : PropType → Option JsonValue
  | .mk _ _ _ _ mn _ _ _ _ _ _ _ _ => mn

/-- The "maximum" constraint, as a raw JSON value. -/
def PropType.maximum : PropType → Option JsonValue
  | .mk _ _ _ _ _ mx _ _ _ _ _ _ _ => mx

/-- The "minLength" constraint, as a raw JSON value. -/
def PropType.minLength : PropType → Option JsonValue
  | .mk _ _ _ _ _ _ ml _ _ _ _ _ _ => ml

/-- The "maxLength" constraint, as a raw JSON value. -/
def PropType.maxLength : PropType → Option JsonValue
  | .mk _ _ _ _ _ _ _ xl _ _ _ _ _ => xl

/-- The enum of allowed values, if any. -/
def PropType.enumVals : PropType → Option (List JsonValue)
  | .mk _ _ _ _ _ _ _ _ ev _ _ _ _ => ev

/-- The default value, if any. -/
def PropType.defVal : PropType → Option JsonValue
  | .mk _ _ _ _ _ _ _ _ _ dv _ _ _ => dv

/-- The nested object properties (Object kind). -/
def PropType.objProps : PropType → Option (List (String × PropType))
  | .mk _ _ _ _ _ _ _ _ _ _ op _ _ => op

/-- The extra-properties flag of the nested object schema. -/
def PropType.objExtra : PropType → Bool
  | .mk _ _ _ _ _ _ _ _ _ _ _ ex _ => ex

/-- The item type (Array kind). -/
def PropType.itemType : PropType → Option PropType
  | .mk _ _ _ _ _ _ _ _ _ _ _ _ it => it

/-- `PropType::Create`: a fresh, unconstrained property type of a given
kind.  An Object skeleton owns an empty nested schema.  Modelled from the
spec: prop_types.cc is not part of the source excerpt. -/
def createSkeleton (t : ValueType) : PropType :=
  .mk t false false [] none none none none none none
    (if t = .objectT then some [] else none) false none

/-- Replace the item type of an (array) property type, as
`ArrayPropType::SetItemType`. -/
def setItemType (p : PropType) (item : PropType) : PropType :=
  match p with
  | .mk t r b o mn mx ml xl ev dv op ex _ =>
      .mk t r b o mn mx ml xl ev dv op ex (some item)

/-- An ordered mapping from property name to property type, plus the
extra-properties flag: the `ObjectSchema` data model. -/
structure ObjectSchema where
  properties : List (String × PropType)
  extra_properties_allowed : Bool

/-- Lookup in a property list (first matching name wins). -/
def plookup (name : String) : List (String × PropType) → Option PropType
  | [] => none
  | (n, p) :: rest => if n = name then some p else plookup name rest

/-- `ObjectSchema::GetProp`: find a property type by name. -/
def ObjectSchema.getProp (s : ObjectSchema) (name : String) : Option PropType :=
  plookup name s.properties

/-- The empty object schema, as built by `ObjectSchema::Create`. -/
def emptySchema : ObjectSchema := ⟨[], false⟩

/-- The "unknown_type" error of `CreatePropType`. -/
def unknownTypeErr (name : String) : String × String :=
  ("unknown_type", "Unknown type " ++ name)

/-- The "no_type_info" error of `ErrorInvalidTypeInfo`. -/
def noTypeInfoErr : String × String :=
  ("no_type_info", "Unable to determine parameter type")

/-- Split a character list at the first occurrence of a separator. -/
def splitFirst (c : Char) : List Char → Option (List Char × List Char)
  | [] => none
  | ch :: rest =>
    if ch = c then some ([], rest)
    else
      match splitFirst c rest with
      | some p => some (ch :: p.1, p.2)
      | none => none

/-- `chromeos::string_utils::SplitAtFirst(s, ".")`: the part before the
first dot and the remainder (empty when there is no dot). -/
def splitAtFirstDot (s : String) : String × String :=
  match splitFirst '.' s.toList with
  | some p => (String.mk p.1, String.mk p.2)
  | none => (s, "")

/-- `CreatePropType` (object_schema.cc): build a property type from a type
name string, recursing on the part after the first dot for array item
types; an unknown primary name yields an "unknown_type" error.  Fuel bounds
the recursion; `createPropType` supplies enough fuel for any input. -/
def createPropTypeFuel : Nat → String → Except ErrChain PropType
  | 0, name => .error [unknownTypeErr name]
  | fuel + 1, name =>
    let pa := splitAtFirstDot name
    match typeFromString pa.1 with
    | none => .error [unknownTypeErr name]
    | some t =>
      if t = .arrayT ∧ pa.2 ≠ "" then
        match createPropTypeFuel fuel pa.2 with
        | .ok item => .ok (setItemType (createSkeleton .arrayT) item)
        | .error e => .error e
      else .ok (createSkeleton t)

/-- `CreatePropType` with sufficient fuel (each recursion strictly shortens
the name). -/
def createPropType (name : String) : Except ErrChain PropType :=
  createPropTypeFuel (name.length + 1) name

/-- `DetectArrayType` (object_schema.cc): the type name deduced from a JSON
array.  With a base schema the base's type name is used; otherwise the
first element's JSON type decides, where a nested array recurses once with
arrays disallowed (no arrays of arrays); empty array or an unsupported
element type yields the empty string. -/
def detectArrayType (l : List JsonValue) (base : Option PropType)
    (allowArrays : Bool) : String :=
  match base with
  | some b => typeToString b.vtype
  | none =>
    match l with
    | [] => ""
    | first :: _ =>
      match first with
      | .boolean _ => typeToString .booleanT
      | .integer _ => typeToString .intT
      | .double _ => typeToString .doubleT
      | .string _ => typeToString .stringT
      | .dict _ => typeToString .objectT
      | .list inner =>
        if allowArrays then
          let child := detectArrayType inner none false
          if child = "" then "" else typeToString .arrayT ++ "." ++ child
        else ""
      | _ => ""

/-- Whether the value at a key of a property-definition dictionary is a
JSON double. -/
def isDoubleAt (entries : JDict) (k : String) : Bool :=
  match jlookup k entries with
  | some (.double _) => true
  | _ => false

/-- Whether the base schema of a detection is present and of Double kind. -/
def baseIsDouble (base : Option PropType) : Bool :=
  match base with
  | some b => b.vtype = .doubleT
  | none => false

/-- `DetectObjectType` (object_schema.cc): type-name detection for a
property defined as a JSON object without an explicit "type" key, in source
order: integer-looking min/max against a Double base schema; a double-typed
bound; any bound (Int); length bounds (String); "properties" (Object);
"items" (Array); an "enum" list (array-element detection); a "default"
value's own kind; otherwise the empty string. -/
def detectObjectType (entries : JDict) (base : Option PropType) : String :=
  let hasMinMax := hasKey entries "minimum" || hasKey entries "maximum"
  if hasMinMax && baseIsDouble base then typeToString .doubleT
  else if isDoubleAt entries "minimum" then typeToString .doubleT
  else if isDoubleAt entries "maximum" then typeToString .doubleT
  else if hasMinMax then typeToString .intT
  else if hasKey entries "minLength" || hasKey entries "maxLength" then
    typeToString .stringT
  else if hasKey entries "properties" then typeToString .objectT
  else if hasKey entries "items" then typeToString .arrayT
  else
    match jlookup "enum" entries with
    | some (.list l) => detectArrayType l base true
    | _ =>
      match jlookup "default" entries with
      | some (.double _) => typeToString .doubleT
      | some (.integer _) => typeToString .intT
      | some (.boolean _) => typeToString .booleanT
      | some (.string _) => typeToString .stringT
      | some (.list l) =>
        let child := detectArrayType l base false
        if child = "" then "" else typeToString .arrayT ++ "." ++ child
      | _ => ""

/-- Whether the value at a key is a JSON dictionary. -/
def isDictAt (entries : JDict) (k : String) : Bool :=
  match jlookup k entries with
  | some (.dict _) => true
  | _ => false

/-- Whether the value at a key is a JSON list. -/
def isListAt (entries : JDict) (k : String) : Bool :=
  match jlookup k entries with
  | some (.list _) => true
  | _ => false

/-- Whether the value at a key is a JSON boolean. -/
def isBoolAt (entries : JDict) (k : String) : Bool :=
  match jlookup k entries with
  | some (.boolean _) => true
  | _ => false

/-- The constraint keys of a property definition dictionary that are
explicitly present and consumed for a given kind, in canonical order. -/
def ownKeysOf (t : ValueType) (entries : JDict) : List String :=
  (if (t = .intT ∨ t = .doubleT) ∧ hasKey entries "minimum" then ["minimum"] else []) ++
  (if (t = .intT ∨ t = .doubleT) ∧ hasKey entries "maximum" then ["maximum"] else []) ++
  (if t = .stringT ∧ hasKey entries "minLength" then ["minLength"] else []) ++
  (if t = .stringT ∧ hasKey entries "maxLength" then ["maxLength"] else []) ++
  (if t = .arrayT ∧ hasKey entries "items" then ["items"] else []) ++
  (if t = .objectT ∧ isDictAt entries "properties" then ["properties"] else []) ++
  (if isListAt entries "enum" then ["enum"] else []) ++
  (if hasKey entries "default" then ["default"] else []) ++
  (if isBoolAt entries "required" then ["required"] else [])

/-- The "param_type_changed" error raised when a definition tries to change
the kind established by the base schema. -/
def paramTypeChangedErr (baseT newT : ValueType) : String × String :=
  ("param_type_changed",
    "Redefining a property of type " ++ typeToString baseT ++ " as " ++
      typeToString newT)

/-- Bound used by the parser termination measure: the recursion-relevant
weight of a dictionary never exceeds its full weight. -/
def rsum_le_dweight : ∀ entries : JDict, rsum entries ≤ dweight entries := by
  intro entries
  induction entries with
  | nil => simp [rsum, dweight]
  | cons kv rest ih =>
    obtain ⟨k, v⟩ := kv
    simp only [rsum, dweight]
    split <;> omega

/-- Bound used by the parser termination measure: a value found under a
recursion-relevant key weighs strictly less than the dictionary's
recursion-relevant weight. -/
def jlookup_rsum_le : ∀ (entries : JDict) (k : String) (v : JsonValue),
    (k = "properties" ∨ k = "items") → jlookup k entries = some v →
    1 + jweight v ≤ rsum entries := by
  intro entries
  induction entries with
  | nil => intro k v _ h; simp [jlookup] at h
  | cons kv rest ih =>
    intro k v hk h
    obtain ⟨k', v'⟩ := kv
    simp only [jlookup] at h
    by_cases hkk : k' = k
    · subst hkk
      simp only [if_pos rfl] at h
      cases h
      simp only [rsum]
      rw [if_pos (by exact hk)]
      omega
    · rw [if_neg hkk] at h
      have := ih k v hk h
      simp only [rsum]
      split <;> omega

mutual
/-- `ObjectSchema::PropFromJson` (object_schema.cc): parse one property
definition given in any of the three shapes (string type name, shorthand
enum array, full object definition), optionally against a base schema; any
other JSON value type yields an "unknown_type" error. -/
def propFromJson (v : JsonValue) (base : Option PropType) :
    Except ErrChain PropType :=
  match v with
  | .string s =>
    match createPropType s with
    | .ok skel => fromJsonDict skel [] base
    | .error e => .error e
  | .list l =>
    let tn := detectArrayType l base true
    if tn = "" then .error [noTypeInfoErr]
    else
      match createPropType tn with
      | .ok skel => fromJsonDict skel [("enum", .list l)] base
      | .error e => .error e
  | .dict entries =>
    match jlookup "type" entries with
    | some (.string s) =>
      match createPropType s with
      | .ok skel => fromJsonDict skel entries base
      | .error e => .error e
    | some _ => .error [noTypeInfoErr]
    | none =>
      let dn := detectObjectType entries base
      let tn : Except ErrChain String :=
        if dn = "" then
          match base with
          | none => .error [noTypeInfoErr]
          | some b => .ok (typeToString b.vtype)
        else .ok dn
      match tn with
      | .error e => .error e
      | .ok name =>
        match createPropType name with
        | .ok skel => fromJsonDict skel entries base
        | .error e => .error e
  | other =>
    .error [("unknown_type", "Unexpected JSON value type: " ++ jsonTypeName other)]
termination_by jweight v
decreasing_by
· simp only [rsum, jweight]
  omega
· simp only [rsum, jweight]
  rw [if_neg (by decide)]
  omega
· have := rsum_le_dweight entries
  simp only [jweight]
  omega
· have := rsum_le_dweight entries
  simp only [jweight]
  omega
/-- `PropType::FromJson`.  Modelled from the spec: prop_types.cc is not
part of the source excerpt.  Checks that the kind matches the base schema's
kind ("param_type_changed" otherwise), then the kind-specific parser
consumes the constraint keys present in the dictionary, inheriting absent
constraints from the base schema (or keeping the skeleton's presets). -/
def fromJsonDict (skel : PropType) (entries : JDict) (base : Option PropType) :
    Except ErrChain PropType :=
  let t := skel.vtype
  match base with
  | some b =>
    if hne : t = b.vtype then
      fromJsonDictCore skel entries (some b) b
    else .error [paramTypeChangedErr b.vtype t]
  | none => fromJsonDictCore skel entries none skel
termination_by 2 + rsum entries
decreasing_by
· omega
· omega
/-- Kind-specific constraint consumption of `PropType::FromJson`, with the
inheritance seed (the base schema when present, the skeleton otherwise)
made explicit.  Modelled from the spec (prop_types.cc is not part of the
source excerpt). -/
def fromJsonDictCore (skel : PropType) (entries : JDict)
    (base : Option PropType) (seed : PropType) : Except ErrChain PropType :=
  let t := skel.vtype
  let r := match jlookup "required" entries with
    | some (.boolean bb) => bb
    | _ => seed.required
  let ev := match jlookup "enum" entries with
    | some (.list l) => some l
    | _ => seed.enumVals
  let dv := match jlookup "default" entries with
    | some v => some v
    | none => seed.defVal
  let own := ownKeysOf t entries
  let bos := base.isSome
  let ex := seed.objExtra
  if t = .objectT then
    match hp : jlookup "properties" entries with
    | some (.dict pents) =>
      let subBase : Option ObjectSchema := match base with
        | some b =>
          match b.objProps with
          | some l => some (ObjectSchema.mk l b.objExtra)
          | none => none
        | none => none
      match schemaPropsFromJson pents subBase with
      | .ok props =>
        .ok (.mk t r bos own none none none none ev dv (some props) ex none)
      | .error e => .error e
    | _ =>
      let op := match seed.objProps with
        | some l => some l
        | none => skel.objProps
      .ok (.mk t r bos own none none none none ev dv op ex none)
  else if t = .arrayT then
    match hi : jlookup "items" entries with
    | some v =>
      match propFromJson v (base.bind fun b => b.itemType) with
      | .ok it =>
        .ok (.mk t r bos own none none none none ev dv none ex (some it))
      | .error e => .error e
    | none =>
      let it := match base with
        | some b =>
          match b.itemType with
          | some bi => some bi
          | none => skel.itemType
        | none => skel.itemType
      .ok (.mk t r bos own none none none none ev dv none ex it)
  else if t = .stringT then
    let ml := match jlookup "minLength" entries with
      | some v => some v
      | none => seed.minLength
    let xl := match jlookup "maxLength" entries with
      | some v => some v
      | none => seed.maxLength
    .ok (.mk t r bos own none none ml xl ev dv none ex none)
  else if t = .intT ∨ t = .doubleT then
    let mn := match jlookup "minimum" entries with
      | some v => some v
      | none => seed.minimum
    let mx := match jlookup "maximum" entries with
      | some v => some v
      | none => seed.maximum
    .ok (.mk t r bos own mn mx none none ev dv none ex none)
  else
    .ok (.mk t r bos own none none none none ev dv none ex none)
termination_by 1 + rsum entries
decreasing_by
· have := jlookup_rsum_le entries "properties" (.dict pents) (Or.inl rfl) hp
  simp only [jweight] at this
  omega
· have := jlookup_rsum_le entries "items" v (Or.inr rfl) hi
  omega
/-- The property-parsing loop of `ObjectSchema::FromJson`
(object_schema.cc): parse each property against the same-named property of
the base schema, wrapping a failure in an "invalid_parameter_definition"
error naming the property. -/
def schemaPropsFromJson (entries : JDict) (base : Option ObjectSchema) :
    Except ErrChain (List (String × PropType)) :=
  match entries with
  | [] => .ok []
  | (name, v) :: rest =>
    let baseProp := match base with
      | some bs => bs.getProp name
      | none => none
    match propFromJson v baseProp with
    | .ok p =>
      match schemaPropsFromJson rest base with
      | .ok props => .ok ((name, p) :: props)
      | .error e => .error e
    | .error e =>
      .error (addErr "invalid_parameter_definition"
        ("Error in definition of property " ++ name) e)
termination_by 1 + dweight entries
decreasing_by
· simp only [dweight]
  omega
· simp only [dweight]
  omega
end

/-- Emit an optional value under a key. -/
def optE (k : String) (v : Option JsonValue) : JDict :=
  match v with
  | some x => [(k, x)]
  | none => []

mutual
/-- `PropType::ToJson` in full-schema mode.  Modelled from the spec:
prop_types.cc is not part of the source excerpt; full mode emits the type
name and every present constraint (spec section 4.1), as exercised by the
full-schema expectations of the command dictionary unit tests. -/
def PropType.toJsonFull (p : PropType) : JsonValue :=
  .dict (("type", .string (typeToString (PropType.vtype p))) :: toJsonFullFields p)
/-- The constraint entries emitted by full-schema serialization, in
canonical order. -/
def toJsonFullFields : PropType → JDict
  | .mk _ r _ _ mn mx ml xl ev dv op _ it =>
    optE "minimum" mn ++ optE "maximum" mx ++ optE "minLength" ml ++
    optE "maxLength" xl ++
    (match it with
     | some q => [("items", PropType.toJsonFull q)]
     | none => []) ++
    (match op with
     | some l => [("properties", .dict (propsToJsonFull l))]
     | none => []) ++
    (match ev with
     | some l => [("enum", .list l)]
     | none => []) ++
    optE "default" dv ++
    (if r then [("required", .boolean true)] else [])
/-- Full-schema serialization of a property list. -/
def propsToJsonFull : List (String × PropType) → JDict
  | [] => []
  | (n, p) :: rest => (n, PropType.toJsonFull p) :: propsToJsonFull rest
end

mutual
/-- `PropType::ToJson` in minimal mode.  Modelled from the spec:
prop_types.cc is not part of the source excerpt; minimal mode emits only
the values set by this definition itself (inherited constraints and an
inherited type are omitted), collapsing to the bare type-name string when
nothing but the type was given, as exercised by the minimal-schema
expectations of the command dictionary unit tests. -/
def PropType.toJsonMin (p : PropType) : JsonValue :=
  let fields := toJsonMinFields p
  if PropType.basedOnSchema p then .dict fields
  else if fields.isEmpty then .string (typeToString (PropType.vtype p))
  else .dict (("type", .string (typeToString (PropType.vtype p))) :: fields)
/-- The constraint entries emitted by minimal-mode serialization: only the
keys present in the definition that produced this type. -/
def toJsonMinFields : PropType → JDict
  | .mk _ r _ own mn mx ml xl ev dv op _ it =>
    (if own.contains "minimum" then optE "minimum" mn else []) ++
    (if own.contains "maximum" then optE "maximum" mx else []) ++
    (if own.contains "minLength" then optE "minLength" ml else []) ++
    (if own.contains "maxLength" then optE "maxLength" xl else []) ++
    (if own.contains "items" then
      match it with
      | some q => [("items", PropType.toJsonMin q)]
      | none => []
     else []) ++
    (if own.contains "properties" then
      match op with
      | some l => [("properties", .dict (propsToJsonMin l))]
      | none => []
     else []) ++
    (if own.contains "enum" then
      match ev with
      | some l => [("enum", .list l)]
      | none => []
     else []) ++
    (if own.contains "default" then optE "default" dv else []) ++
    (if own.contains "required" then [("required", .boolean r)] else [])
/-- Minimal-mode serialization of a property list. -/
def propsToJsonMin : List (String × PropType) → JDict
  | [] => []
  | (n, p) :: rest => (n, PropType.toJsonMin p) :: propsToJsonMin rest
end

mutual
/-- `PropType::Clone`: a total deep duplication of a property type,
rebuilding every nested object schema and item type.  Modelled from the
spec: prop_types.cc is not part of the source excerpt. -/
def PropType.clone : PropType → PropType
  | .mk t r b o mn mx ml xl ev dv op ex it =>
    .mk t r b o mn mx ml xl ev dv
      (match op with
       | some l => some (cloneProps l)
       | none => none) ex
      (match it with
       | some q => some (PropType.clone q)
       | none => none)
/-- The property-cloning loop of `ObjectSchema::Clone` (object_schema.cc):
every property type duplicated. -/
def cloneProps : List (String × PropType) → List (String × PropType)
  | [] => []
  | (n, p) :: rest => (n, PropType.clone p) :: cloneProps rest
end

/-- `ObjectSchema::Clone` (object_schema.cc): clone every property and copy
the extra-properties flag. -/
def ObjectSchema.clone (s : ObjectSchema) : ObjectSchema :=
  ⟨cloneProps s.properties, s.extra_properties_allowed⟩

/-- Insert-or-replace in a property list. -/
def setProp : List (String × PropType) → String → PropType →
    List (String × PropType)
  | [], name, p => [(name, p)]
  | (n, q) :: rest, name, p =>
    if n = name then (n, p) :: rest else (n, q) :: setProp rest name p

/-- `ObjectSchema::AddProp` (object_schema.cc): add a property, overriding
an existing one of the same name. -/
def ObjectSchema.addProp (s : ObjectSchema) (name : String) (p : PropType) :
    ObjectSchema :=
  ⟨setProp s.properties name p, s.extra_properties_allowed⟩

/-- `ObjectSchema::ToJson` (object_schema.cc): serialize every property in
full or minimal mode. -/
def ObjectSchema.toJson (s : ObjectSchema) (fullSchema : Bool) : JsonValue :=
  .dict (if fullSchema then propsToJsonFull s.properties
         else propsToJsonMin s.properties)

/-- `ObjectSchema::FromJson` (object_schema.cc) as a state transformer on
the target schema: the loop parses into a fresh local property list and
only commits it to the object on success, so a failure leaves the prior
contents untouched and reports the wrapped error. -/
def ObjectSchema.fromJsonInto (self : ObjectSchema) (entries : JDict)
    (base : Option ObjectSchema) : Option ErrChain × ObjectSchema :=
  match schemaPropsFromJson entries base with
  | .ok props => (none, ⟨props, self.extra_properties_allowed⟩)
  | .error e => (some e, self)

/-- Generic association-list lookup (first matching key wins). -/
def alookup {α : Type} (k : String) : List (String × α) → Option α
  | [] => none
  | (k', v) :: rest => if k' = k then some v else alookup k rest

/-- The minimal-role enumeration of a command. -/
inductive UserRole where
  | viewer
  | user
  | manager
  | owner
  deriving DecidableEq

/-- `minimalRole` parsing.  Modelled from the spec: command_dictionary.cc
is not part of the source excerpt; the role names are fixed by spec
section 4.2. -/
def roleFromString (s : String) : Option UserRole :=
  if s = "viewer" then some .viewer
  else if s = "user" then some .user
  else if s = "manager" then some .manager
  else if s = "owner" then some .owner
  else none

/-- The JSON name of a role. -/
def roleToString : UserRole → String
  | .viewer => "viewer"
  | .user => "user"
  | .manager => "manager"
  | .owner => "owner"

/-- Which channels may see or invoke a command. -/
structure Visibility where
  localAccess : Bool
  cloudAccess : Bool
  deriving DecidableEq

/-- `Visibility::ToString`: "all", "local", "cloud" or "none". -/
def Visibility.toStr (v : Visibility) : String :=
  if v.localAccess && v.cloudAccess then "all"
  else if v.localAccess then "local"
  else if v.cloudAccess then "cloud"
  else "none"

/-- The default visibility: all channels. -/
def visibilityAll : Visibility := ⟨true, true⟩

/-- Visibility parsing over the comma-separated token list.  Modelled from
the spec: the token set is fixed by spec section 4.2; an unknown token
fails. -/
def visibilityFromTokens : List String → Visibility → Option Visibility
  | [], acc => some acc
  | tok :: rest, acc =>
    if tok = "all" then visibilityFromTokens rest ⟨true, true⟩
    else if tok = "none" then visibilityFromTokens rest ⟨false, false⟩
    else if tok = "local" then visibilityFromTokens rest ⟨true, acc.cloudAccess⟩
    else if tok = "cloud" then visibilityFromTokens rest ⟨acc.localAccess, true⟩
    else none

/-- The parameter/progress/results schemas plus access metadata of one
command: the `CommandDefinition` data model. -/
structure CommandDefinition where
  parameters : ObjectSchema
  progress : ObjectSchema
  results : ObjectSchema
  visibility : Visibility
  minimalRole : UserRole

/-- A mapping from fully-qualified command name to definition: the
`CommandDictionary` data model. -/
structure CommandDictionary where
  definitions : List (String × CommandDefinition)

/-- The empty command dictionary. -/
def emptyCommandDictionary : CommandDictionary := ⟨[]⟩

/-- `CommandDictionary::FindCommand`: look a definition up by its
fully-qualified name. -/
def CommandDictionary.findCommand (d : CommandDictionary) (name : String) :
    Option CommandDefinition :=
  alookup name d.definitions

/-- `CommandDictionary::GetSize`. -/
def CommandDictionary.getSize (d : CommandDictionary) : Nat :=
  d.definitions.length

/-- Parse one schema section ("parameters", "progress" or "results") of a
command definition.  Modelled from the spec (command_dictionary.cc is not
part of the source excerpt): an omitted section inherits a clone of the
base definition's schema; a present section is parsed against the base
schema, a failure being wrapped in "invalid_object_schema"; a non-object
value is a "type_mismatch". -/
def parseSection (key : String) (centries : JDict)
    (baseSchema : Option ObjectSchema) : Except ErrChain ObjectSchema :=
  match jlookup key centries with
  | none =>
    match baseSchema with
    | some bs => .ok bs.clone
    | none => .ok emptySchema
  | some (.dict entries) =>
    match schemaPropsFromJson entries baseSchema with
    | .ok props => .ok ⟨props, false⟩
    | .error e =>
      .error (addErr "invalid_object_schema"
        ("Invalid definition of the " ++ key ++ " of the command") e)
  | some _ =>
    .error [("type_mismatch", "Expected object for the " ++ key ++ " key")]

/-- Parse the "visibility" entry of a command definition: a comma-separated
token set, defaulting to the base definition's visibility (or all).
Modelled from the spec (command_dictionary.cc is not part of the source
excerpt, spec section 4.2 step 4): an invalid token fails with
"invalid_command_visibility" wrapping "invalid_parameter_value". -/
def parseVisibilitySection (centries : JDict)
    (baseDef : Option CommandDefinition) : Except ErrChain Visibility :=
  match jlookup "visibility" centries with
  | none =>
    .ok (match baseDef with
         | some b => b.visibility
         | none => visibilityAll)
  | some (.string s) =>
    match visibilityFromTokens (s.splitOn ",") ⟨false, false⟩ with
    | some v => .ok v
    | none =>
      .error (addErr "invalid_command_visibility"
        "Error parsing command visibility"
        [("invalid_parameter_value", "Invalid visibility value " ++ s)])
  | some _ => .error [("type_mismatch", "Expected string for visibility")]

/-- Parse the "minimalRole" entry of a command definition, defaulting to
the base definition's role (or user).  Modelled from the spec
(command_dictionary.cc is not part of the source excerpt, spec section 4.2
step 4): an invalid role fails with "invalid_minimal_role" wrapping
"invalid_parameter_value". -/
def parseRoleSection (centries : JDict) (baseDef : Option CommandDefinition) :
    Except ErrChain UserRole :=
  match jlookup "minimalRole" centries with
  | none =>
    .ok (match baseDef with
         | some b => b.minimalRole
         | none => UserRole.user)
  | some (.string s) =>
    match roleFromString s with
    | some r => .ok r
    | none =>
      .error (addErr "invalid_minimal_role"
        "Error parsing the minimal role"
        [("invalid_parameter_value", "Invalid role value " ++ s)])
  | some _ => .error [("type_mismatch", "Expected string for minimalRole")]

/-- Parse one command definition against its base definition.  Modelled
from the spec (command_dictionary.cc is not part of the source excerpt,
spec section 4.2 steps 2 to 4): the base definition seeds schema parsing
and the visibility/minimal-role defaults; invalid visibility or role
tokens fail with "invalid_command_visibility"/"invalid_minimal_role"
wrapping an "invalid_parameter_value". -/
def parseCommandDef (centries : JDict) (baseDef : Option CommandDefinition) :
    Except ErrChain CommandDefinition := do
  let params ← parseSection "parameters" centries
    (baseDef.map fun b => b.parameters)
  let prog ← parseSection "progress" centries
    (baseDef.map fun b => b.progress)
  let res ← parseSection "results" centries
    (baseDef.map fun b => b.results)
  let vis ← parseVisibilitySection centries baseDef
  let role ← parseRoleSection centries baseDef
  pure ⟨params, prog, res, vis, role⟩

/-- Whether the first character of a string is the given character, as
`command_name.front() == c`. -/
def firstCharIs (c : Char) (s : String) : Bool :=
  match s.toList with
  | [] => false
  | ch :: _ => ch = c

/-- Load one named command of a package into the dictionary.  Modelled from
the spec (command_dictionary.cc is not part of the source excerpt, spec
sections 4.2 and 9): an empty name fails with "invalid_command_name"; with
a base dictionary, a name with no base entry must start with an underscore
("custom" command), else "invalid_command_name"; a non-object definition is
a "type_mismatch"; redefining a name already present in the dictionary is
the distinguishable "duplicate_command_definition" condition. -/
def loadOneCommand (acc : CommandDictionary) (base : Option CommandDictionary)
    (pkg cname : String) (cjson : JsonValue) :
    Except ErrChain CommandDictionary :=
  if cname = "" then
    .error [("invalid_command_name",
      "Unnamed command encountered in package " ++ pkg)]
  else
    match cjson with
    | .dict centries =>
      let full := pkg ++ "." ++ cname
      let baseDef := match base with
        | some bd => bd.findCommand full
        | none => none
      if base.isSome && baseDef.isNone && !firstCharIs '_' cname then
        .error [("invalid_command_name", "Unknown command " ++ full)]
      else
        match parseCommandDef centries baseDef with
        | .ok cd =>
          match acc.findCommand full with
          | some _ =>
            .error [("duplicate_command_definition",
              "Definition for command " ++ full ++
                " overrides an earlier definition")]
          | none => .ok ⟨(full, cd) :: acc.definitions⟩
        | .error e => .error e
    | _ =>
      .error [("type_mismatch", "Expected object for command " ++ cname)]

/-- Load every command of one package, in order, stopping at the first
failure.  Modelled from the spec (command_dictionary.cc is not part of the
source excerpt). -/
def loadPackageCommands (acc : CommandDictionary)
    (base : Option CommandDictionary) (pkg : String) :
    List (String × JsonValue) → Except ErrChain CommandDictionary
  | [] => .ok acc
  | (cname, cjson) :: rest =>
    match loadOneCommand acc base pkg cname cjson with
    | .ok acc' => loadPackageCommands acc' base pkg rest
    | .error e => .error e

/-- Load every package of a command tree, in order; a non-object package
value is a "type_mismatch".  Modelled from the spec (command_dictionary.cc
is not part of the source excerpt). -/
def loadPackages (acc : CommandDictionary) (base : Option CommandDictionary) :
    JDict → Except ErrChain CommandDictionary
  | [] => .ok acc
  | (pkg, pkgVal) :: rest =>
    match pkgVal with
    | .dict cmds =>
      match loadPackageCommands acc base pkg cmds with
      | .ok acc' => loadPackages acc' base rest
      | .error e => .error e
    | _ => .error [("type_mismatch", "Expected object for package " ++ pkg)]

/-- `CommandDictionary::LoadCommands`.  Modelled from the spec
(command_dictionary.cc is not part of the source excerpt, spec section
4.2): walk the {package: {command: definition}} tree, validating names and
parsing each definition against the base dictionary. -/
def CommandDictionary.loadCommands (self : CommandDictionary) (tree : JDict)
    (base : Option CommandDictionary) : Except ErrChain CommandDictionary :=
  loadPackages self base tree

/-- `CommandDictionary::LoadCommands` as a state transformer: on failure
the dictionary is left unchanged and the error reported.  Modelled from
the spec: "populating/extending the dictionary or leaving it unchanged on
failure" (spec section 4.2). -/
def loadCommandsInto (self : CommandDictionary) (tree : JDict)
    (base : Option CommandDictionary) : Option ErrChain × CommandDictionary :=
  match self.loadCommands tree base with
  | .ok d => (none, d)
  | .error e => (some e, self)

/-- Serialization of a single command definition: its parameter schema and
minimal role.  Modelled from the spec (command_dictionary.cc is not part of
the source excerpt), matching the shapes expected by the
`GetCommandsAsJson` unit tests. -/
def commandDefToJson (cd : CommandDefinition) (fullSchema : Bool) : JsonValue :=
  .dict [("parameters", cd.parameters.toJson fullSchema),
         ("minimalRole", .string (roleToString cd.minimalRole))]

/-- Insert a serialized command under its package in the grouped output. -/
def insertGrouped (out : JDict) (pkg cname : String) (cj : JsonValue) : JDict :=
  match out with
  | [] => [(pkg, .dict [(cname, cj)])]
  | (p, v) :: rest =>
    if p = pkg then
      match v with
      | .dict cmds => (p, .dict (cmds ++ [(cname, cj)])) :: rest
      | _ => (p, v) :: rest
    else (p, v) :: insertGrouped rest pkg cname cj

/-- Serialize the commands passing the predicate, grouped by package. -/
def commandsToGrouped (defs : List (String × CommandDefinition))
    (pred : CommandDefinition → Bool) (fullSchema : Bool) (out : JDict) :
    JDict :=
  match defs with
  | [] => out
  | (full, cd) :: rest =>
    let out' :=
      if pred cd then
        match splitFirst '.' full.toList with
        | some p =>
          insertGrouped out (String.mk p.1) (String.mk p.2)
            (commandDefToJson cd fullSchema)
        | none => out
      else out
    commandsToGrouped rest pred fullSchema out'

/-- `CommandDictionary::GetCommandsAsJson`: the dictionary filtered by a
visibility predicate, serialized in full or minimal form, grouped by
package.  Modelled from the spec (command_dictionary.cc is not part of the
source excerpt, spec section 4.2). -/
def CommandDictionary.getCommandsAsJson (d : CommandDictionary)
    (pred : CommandDefinition → Bool) (fullSchema : Bool) : JsonValue :=
  .dict (commandsToGrouped d.definitions.reverse pred fullSchema [])

/-- Path lookup in a JSON value: follow a chain of dictionary keys. -/
def jpath : JsonValue → List String → Option JsonValue
  | v, [] => some v
  | .dict entries, k :: rest =>
    match jlookup k entries with
    | some v => jpath v rest
    | none => none
  | _, _ :: _ => none

/-- A recorded state change: timestamp, qualified property name, value. -/
structure StateChangeRecord where
  timestamp : Nat
  name : String
  value : JsonValue

/-- The category-keyed live property store: declared package schemas, the
current values under qualified names, and the recorded change queue:
the `StateManager` data model. -/
structure StateManager where
  packages : List (String × ObjectSchema)
  values : List (String × JsonValue)
  changes : List StateChangeRecord

/-- Insert-or-replace in the value store. -/
def setValue (vals : List (String × JsonValue)) (name : String)
    (v : JsonValue) : List (String × JsonValue) :=
  match vals with
  | [] => [(name, v)]
  | (n, w) :: rest =>
    if n = name then (n, v) :: rest else (n, w) :: setValue rest name v

/-- `StateManager::SetPropertyValue` as a state transformer.  Modelled from
the spec (state_manager.cc is not part of the source excerpt, spec section
4.3): an empty name fails with "property_name_missing"; a name without a
dot separator fails with "package_name_missing"; an unknown package or an
undeclared property fails with "property_not_defined"; on failure the
store and the change queue are untouched; on success the value is stored
and a change record stamped with the given timestamp is queued. -/
def StateManager.setPropertyValueInto (mgr : StateManager) (name : String)
    (v : JsonValue) (ts : Nat) : Option ErrChain × StateManager :=
  if name = "" then
    (some [("property_name_missing", "Property name is missing")], mgr)
  else
    match splitFirst '.' name.toList with
    | none =>
      (some [("package_name_missing",
        "Package name is missing in the property name")], mgr)
    | some parts =>
      let pkg := String.mk parts.1
      let prop := String.mk parts.2
      match alookup pkg mgr.packages with
      | none =>
        (some [("property_not_defined",
          "State property " ++ name ++ " is not defined")], mgr)
      | some schema =>
        match schema.getProp prop with
        | none =>
          (some [("property_not_defined",
            "State property " ++ name ++ " is not defined")], mgr)
        | some _ =>
          (none, ⟨mgr.packages, setValue mgr.values name v,
            mgr.changes ++ [⟨ts, name, v⟩]⟩)

mutual
/-- Shape invariant of property types produced by parsing without a base
schema: constraint slots foreign to the kind are empty, the
extra-properties flag is clear, an Object always owns a property list, and
nested types satisfy the same invariant. -/
def GoodProp : PropType → Prop
  | .mk t _ _ _ mn mx ml xl _ _ op ex it =>
    ex = false ∧
    (match t with
     | .intT => ml = none ∧ xl = none ∧ op = none ∧ it = none
     | .doubleT => ml = none ∧ xl = none ∧ op = none ∧ it = none
     | .booleanT =>
       mn = none ∧ mx = none ∧ ml = none ∧ xl = none ∧ op = none ∧ it = none
     | .stringT => mn = none ∧ mx = none ∧ op = none ∧ it = none
     | .objectT =>
       mn = none ∧ mx = none ∧ ml = none ∧ xl = none ∧ it = none ∧
       (match op with
        | some l => GoodProps l
        | none => False)
     | .arrayT =>
       mn = none ∧ mx = none ∧ ml = none ∧ xl = none ∧ op = none ∧
       GoodOptProp it)
/-- The shape invariant over a property list. -/
def GoodProps : List (String × PropType) → Prop
  | [] => True
  | (_, p) :: rest => GoodProp p ∧ GoodProps rest
/-- The shape invariant over an optional property type. -/
def GoodOptProp : Option PropType → Prop
  | none => True
  | some q => GoodProp q
end

mutual
/-- Semantic equality of property types as used by the round-trip
property: same kind, same constraints (numeric bounds, length bounds,
enum), same default, same required flag, and the same recursively for the
nested object schema and the array item type.  Bookkeeping fields (the
based-on-schema marker and the record of explicitly present keys) are
ignored. -/
def semEq : PropType → PropType → Prop
  | .mk t r _ _ mn mx ml xl ev dv op _ it,
    .mk t' r' _ _ mn' mx' ml' xl' ev' dv' op' _ it' =>
    t = t' ∧ r = r' ∧ mn = mn' ∧ mx = mx' ∧ ml = ml' ∧ xl = xl' ∧
    ev = ev' ∧ dv = dv' ∧
    (match op, op' with
     | some l, some l' => semEqProps l l'
     | none, none => True
     | _, _ => False) ∧
    (match it, it' with
     | some q, some q' => semEq q q'
     | none, none => True
     | _, _ => False)
/-- Semantic equality of property lists: same names in the same order,
semantically equal types. -/
def semEqProps : List (String × PropType) → List (String × PropType) → Prop
  | [], [] => True
  | (n, p) :: rest, (n', p') :: rest' => n = n' ∧ semEq p p' ∧ semEqProps rest rest'
  | _, _ => False
end

/-- The record of explicitly present constraint keys that re-parsing a
full-schema serialization produces: one entry per present field, gated by
the kind, in canonical order. -/
def refreshOwn (t : ValueType) (r : Bool)
    (mn mx ml xl : Option JsonValue) (ev : Option (List JsonValue))
    (dv : Option JsonValue) (op : Option (List (String × PropType)))
    (it : Option PropType) : List String :=
  (if (t = .intT ∨ t = .doubleT) ∧ mn.isSome then ["minimum"] else []) ++
  (if (t = .intT ∨ t = .doubleT) ∧ mx.isSome then ["maximum"] else []) ++
  (if t = .stringT ∧ ml.isSome then ["minLength"] else []) ++
  (if t = .stringT ∧ xl.isSome then ["maxLength"] else []) ++
  (if t = .arrayT ∧ it.isSome then ["items"] else []) ++
  (if t = .objectT ∧ op.isSome then ["properties"] else []) ++
  (if ev.isSome then ["enum"] else []) ++
  (if dv.isSome then ["default"] else []) ++
  (if r then ["required"] else [])

mutual
/-- The property type produced by re-parsing a full-schema serialization:
the same kind, constraints and default, with the bookkeeping fields
recomputed (not based on a schema; the present keys are exactly the
serialized ones) and the nested types refreshed likewise. -/
def refresh : PropType → PropType
  | .mk t r _ _ mn mx ml xl ev dv op _ it =>
    .mk t r false (refreshOwn t r mn mx ml xl ev dv op it) mn mx ml xl ev dv
      (match op with
       | some l => some (refreshProps l)
       | none => none) false
      (match it with
       | some q => some (refresh q)
       | none => none)
/-- Refreshing over a property list. -/
def refreshProps : List (String × PropType) → List (String × PropType)
  | [] => []
  | (n, p) :: rest => (n, refresh p) :: refreshProps rest
end

/-- Kind stability of one loaded command definition against the base
dictionary: wherever the base defines a command of the same full name, a
parameter, progress or result property that the base's corresponding
schema also declares keeps the base's kind. -/
def KindPreserved (bd : CommandDictionary) (full : String)
    (cd : CommandDefinition) : Prop :=
  ∀ bdef, bd.findCommand full = some bdef →
    (∀ name p bp, cd.parameters.getProp name = some p →
      bdef.parameters.getProp name = some bp → p.vtype = bp.vtype) ∧
    (∀ name p bp, cd.progress.getProp name = some p →
      bdef.progress.getProp name = some bp → p.vtype = bp.vtype) ∧
    (∀ name p bp, cd.results.getProp name = some p →
      bdef.results.getProp name = some bp → p.vtype = bp.vtype)

/-- Every key of a dictionary fragment belongs to a given key set. -/
def keysAre (xs : JDict) (ks : List String) : Prop :=
  ∀ kv ∈ xs, kv.1 ∈ ks

/-- The base-dictionary JSON tree of the end-to-end override example:
base.reboot with a delay parameter bounded above by 100. -/
def c3BaseTree : JDict :=
  [("base", .dict [("reboot", .dict
    [("parameters", .dict [("delay", .dict [("maximum", .integer 100)])]),
     ("results", .dict [])])])]

/-- The overlay JSON tree of the end-to-end override example: base.reboot
redefining delay with a lower bound of 10. -/
def c3Overlay : JDict :=
  [("base", .dict [("reboot", .dict
    [("parameters", .dict [("delay", .dict [("minimum", .integer 10)])])])])]

/-- The dictionary obtained by loading the example base tree. -/
def c3BaseDict : CommandDictionary :=
  ((emptyCommandDictionary.loadCommands c3BaseTree none).toOption).getD
    emptyCommandDictionary

/-- The dictionary obtained by loading the example overlay against the
example base dictionary. -/
def c3Dict : CommandDictionary :=
  ((emptyCommandDictionary.loadCommands c3Overlay (some c3BaseDict)).toOption).getD
    emptyCommandDictionary

/-- The parsed base delay parameter of the end-to-end example: an Int type
with maximum 100. -/
def c3DelayBase : PropType :=
  .mk .intT false false ["maximum"] none (some (.integer 100)) none none
    none none none false none

/-- The parsed base.reboot definition of the example base dictionary. -/
def c3CdBase : CommandDefinition :=
  ⟨⟨[("delay", c3DelayBase)], false⟩, emptySchema, ⟨[], false⟩,
   visibilityAll, .user⟩

/-- The example base dictionary, explicitly. -/
def c3DictBase : CommandDictionary := ⟨[("base.reboot", c3CdBase)]⟩

/-- The merged delay parameter after the overlay: an Int type with the
overridden minimum 10 and the inherited maximum 100. -/
def c3DelayOver : PropType :=
  .mk .intT false true ["minimum"] (some (.integer 10))
    (some (.integer 100)) none none none none none false none

/-- The merged base.reboot definition after loading the overlay. -/
def c3CdOver : CommandDefinition :=
  ⟨⟨[("delay", c3DelayOver)], false⟩, emptySchema, ⟨[], false⟩,
   visibilityAll, .user⟩

/-- The example overlay dictionary, explicitly. -/
def c3DictOver : CommandDictionary := ⟨[("base.reboot", c3CdOver)]⟩

/-- A concrete standard-command definition used by witnesses: integer
delay parameter, integer version result. -/
def wBdef : CommandDefinition :=
  ⟨⟨[("delay", createSkeleton .intT)], false⟩,
   emptySchema,
   ⟨[("version", createSkeleton .intT)], false⟩,
   visibilityAll, .user⟩

/-- A concrete base dictionary used by witnesses: the single standard
command base.reboot. -/
def wBdict : CommandDictionary := ⟨[("base.reboot", wBdef)]⟩

/-- A concrete state manager used by witnesses: one base package with a
manufacturer string property, no values, no recorded changes. -/
def wMgr : StateManager :=
  ⟨[("base", ⟨[("manufacturer", createSkeleton .stringT)], false⟩)], [], []⟩

theorem jlookup_append (k : String) (xs ys : JDict) :
    jlookup k (xs ++ ys) = match jlookup k xs with
      | some v => some v
      | none => jlookup k ys := by
  induction xs with
  | nil => simp [jlookup]
  | cons kv rest ih =>
    obtain ⟨k', v⟩ := kv
    by_cases h : k' = k <;> simp [jlookup, h, ih]

theorem jlookup_optE_self (k : String) (v : Option JsonValue) :
    jlookup k (optE k v) = v := by
  cases v <;> simp [optE, jlookup]

theorem jlookup_optE_ne {k' k : String} (h : ¬k' = k) (v : Option JsonValue) :
    jlookup k (optE k' v) = none := by
  cases v <;> simp [optE, jlookup, h]

theorem jlookup_itemsChunk_ne {k : String} (h : ¬"items" = k)
    (it : Option PropType) :
    jlookup k (match it with
      | some q => [("items", PropType.toJsonFull q)]
      | none => []) = none := by
  cases it <;> simp [jlookup, h]

theorem jlookup_itemsChunk_self (it : Option PropType) :
    jlookup "items" (match it with
      | some q => [("items", PropType.toJsonFull q)]
      | none => []) = it.map PropType.toJsonFull := by
  cases it <;> simp [jlookup]

theorem jlookup_propsChunk_ne {k : String} (h : ¬"properties" = k)
    (op : Option (List (String × PropType))) :
    jlookup k (match op with
      | some l => [("properties", JsonValue.dict (propsToJsonFull l))]
      | none => []) = none := by
  cases op <;> simp [jlookup, h]

theorem jlookup_propsChunk_self (op : Option (List (String × PropType))) :
    jlookup "properties" (match op with
      | some l => [("properties", JsonValue.dict (propsToJsonFull l))]
      | none => []) =
      op.map fun l => JsonValue.dict (propsToJsonFull l) := by
  cases op <;> simp [jlookup]

theorem jlookup_enumChunk_ne {k : String} (h : ¬"enum" = k)
    (ev : Option (List JsonValue)) :
    jlookup k (match ev with
      | some l => [("enum", JsonValue.list l)]
      | none => []) = none := by
  cases ev <;> simp [jlookup, h]

theorem jlookup_enumChunk_self (ev : Option (List JsonValue)) :
    jlookup "enum" (match ev with
      | some l => [("enum", JsonValue.list l)]
      | none => []) = ev.map JsonValue.list := by
  cases ev <;> simp [jlookup]

theorem jlookup_reqChunk_ne {k : String} (h : ¬"required" = k) (r : Bool) :
    jlookup k (if r then [("required", JsonValue.boolean true)] else []) =
      none := by
  cases r <;> simp [jlookup, h]

theorem jlookup_reqChunk_self (r : Bool) :
    jlookup "required" (if r then [("required", JsonValue.boolean true)] else []) =
      (if r then some (JsonValue.boolean true) else none) := by
  cases r <;> simp [jlookup]

theorem jlookup_emit_type (x : JsonValue) (p : PropType) :
    jlookup "type" (("type", x) :: toJsonFullFields p) = some x := by
  simp [jlookup]

theorem jlookup_emit_min (x : JsonValue) (t r b o mn mx ml xl ev dv op ex it) :
    jlookup "minimum" (("type", x) ::
      toJsonFullFields (.mk t r b o mn mx ml xl ev dv op ex it)) = mn := by
  cases it <;> cases op <;> cases ev <;>
    simp [toJsonFullFields, jlookup_append, jlookup, jlookup_optE_self,
      jlookup_optE_ne (show ¬"maximum" = "minimum" by decide),
      jlookup_optE_ne (show ¬"minLength" = "minimum" by decide),
      jlookup_optE_ne (show ¬"maxLength" = "minimum" by decide),
      jlookup_optE_ne (show ¬"default" = "minimum" by decide),
      jlookup_reqChunk_ne (show ¬"required" = "minimum" by decide)] <;>
    cases mn <;> rfl

theorem jlookup_emit_max (x : JsonValue) (t r b o mn mx ml xl ev dv op ex it) :
    jlookup "maximum" (("type", x) ::
      toJsonFullFields (.mk t r b o mn mx ml xl ev dv op ex it)) = mx := by
  cases it <;> cases op <;> cases ev <;>
    simp [toJsonFullFields, jlookup_append, jlookup, jlookup_optE_self,
      jlookup_optE_ne (show ¬"minimum" = "maximum" by decide),
      jlookup_optE_ne (show ¬"minLength" = "maximum" by decide),
      jlookup_optE_ne (show ¬"maxLength" = "maximum" by decide),
      jlookup_optE_ne (show ¬"default" = "maximum" by decide),
      jlookup_reqChunk_ne (show ¬"required" = "maximum" by decide)] <;>
    cases mx <;> rfl

theorem jlookup_emit_minLength (x : JsonValue)
    (t r b o mn mx ml xl ev dv op ex it) :
    jlookup "minLength" (("type", x) ::
      toJsonFullFields (.mk t r b o mn mx ml xl ev dv op ex it)) = ml := by
  cases it <;> cases op <;> cases ev <;>
    simp [toJsonFullFields, jlookup_append, jlookup, jlookup_optE_self,
      jlookup_optE_ne (show ¬"minimum" = "minLength" by decide),
      jlookup_optE_ne (show ¬"maximum" = "minLength" by decide),
      jlookup_optE_ne (show ¬"maxLength" = "minLength" by decide),
      jlookup_optE_ne (show ¬"default" = "minLength" by decide),
      jlookup_reqChunk_ne (show ¬"required" = "minLength" by decide)] <;>
    cases ml <;> rfl

theorem jlookup_emit_maxLength (x : JsonValue)
    (t r b o mn mx ml xl ev dv op ex it) :
    jlookup "maxLength" (("type", x) ::
      toJsonFullFields (.mk t r b o mn mx ml xl ev dv op ex it)) = xl := by
  cases it <;> cases op <;> cases ev <;>
    simp [toJsonFullFields, jlookup_append, jlookup, jlookup_optE_self,
      jlookup_optE_ne (show ¬"minimum" = "maxLength" by decide),
      jlookup_optE_ne (show ¬"maximum" = "maxLength" by decide),
      jlookup_optE_ne (show ¬"minLength" = "maxLength" by decide),
      jlookup_optE_ne (show ¬"default" = "maxLength" by decide),
      jlookup_reqChunk_ne (show ¬"required" = "maxLength" by decide)] <;>
    cases xl <;> rfl

theorem jlookup_emit_items (x : JsonValue) (t r b o mn mx ml xl ev dv op ex it) :
    jlookup "items" (("type", x) ::
      toJsonFullFields (.mk t r b o mn mx ml xl ev dv op ex it)) =
      it.map PropType.toJsonFull := by
  cases it <;> cases op <;> cases ev <;>
    simp [toJsonFullFields, jlookup_append, jlookup,
      jlookup_optE_ne (show ¬"minimum" = "items" by decide),
      jlookup_optE_ne (show ¬"maximum" = "items" by decide),
      jlookup_optE_ne (show ¬"minLength" = "items" by decide),
      jlookup_optE_ne (show ¬"maxLength" = "items" by decide),
      jlookup_optE_ne (show ¬"default" = "items" by decide),
      jlookup_reqChunk_ne (show ¬"required" = "items" by decide)]

theorem jlookup_emit_properties (x : JsonValue)
    (t r b o mn mx ml xl ev dv op ex it) :
    jlookup "properties" (("type", x) ::
      toJsonFullFields (.mk t r b o mn mx ml xl ev dv op ex it)) =
      op.map fun l => JsonValue.dict (propsToJsonFull l) := by
  cases it <;> cases op <;> cases ev <;>
    simp [toJsonFullFields, jlookup_append, jlookup,
      jlookup_optE_ne (show ¬"minimum" = "properties" by decide),
      jlookup_optE_ne (show ¬"maximum" = "properties" by decide),
      jlookup_optE_ne (show ¬"minLength" = "properties" by decide),
      jlookup_optE_ne (show ¬"maxLength" = "properties" by decide),
      jlookup_optE_ne (show ¬"default" = "properties" by decide),
      jlookup_reqChunk_ne (show ¬"required" = "properties" by decide)]

theorem jlookup_emit_enum (x : JsonValue) (t r b o mn mx ml xl ev dv op ex it) :
    jlookup "enum" (("type", x) ::
      toJsonFullFields (.mk t r b o mn mx ml xl ev dv op ex it)) =
      ev.map JsonValue.list := by
  cases it <;> cases op <;> cases ev <;>
    simp [toJsonFullFields, jlookup_append, jlookup,
      jlookup_optE_ne (show ¬"minimum" = "enum" by decide),
      jlookup_optE_ne (show ¬"maximum" = "enum" by decide),
      jlookup_optE_ne (show ¬"minLength" = "enum" by decide),
      jlookup_optE_ne (show ¬"maxLength" = "enum" by decide),
      jlookup_optE_ne (show ¬"default" = "enum" by decide),
      jlookup_reqChunk_ne (show ¬"required" = "enum" by decide)]

theorem jlookup_emit_default (x : JsonValue)
    (t r b o mn mx ml xl ev dv op ex it) :
    jlookup "default" (("type", x) ::
      toJsonFullFields (.mk t r b o mn mx ml xl ev dv op ex it)) = dv := by
  cases it <;> cases op <;> cases ev <;>
    simp [toJsonFullFields, jlookup_append, jlookup, jlookup_optE_self,
      jlookup_optE_ne (show ¬"minimum" = "default" by decide),
      jlookup_optE_ne (show ¬"maximum" = "default" by decide),
      jlookup_optE_ne (show ¬"minLength" = "default" by decide),
      jlookup_optE_ne (show ¬"maxLength" = "default" by decide),
      jlookup_reqChunk_ne (show ¬"required" = "default" by decide)] <;>
    cases dv <;> rfl

theorem jlookup_emit_required (x : JsonValue)
    (t r b o mn mx ml xl ev dv op ex it) :
    jlookup "required" (("type", x) ::
      toJsonFullFields (.mk t r b o mn mx ml xl ev dv op ex it)) =
      (if r then some (JsonValue.boolean true) else none) := by
  cases it <;> cases op <;> cases ev <;>
    simp [toJsonFullFields, jlookup_append, jlookup, jlookup_reqChunk_self,
      jlookup_optE_ne (show ¬"minimum" = "required" by decide),
      jlookup_optE_ne (show ¬"maximum" = "required" by decide),
      jlookup_optE_ne (show ¬"minLength" = "required" by decide),
      jlookup_optE_ne (show ¬"maxLength" = "required" by decide),
      jlookup_optE_ne (show ¬"default" = "required" by decide)]

/-- C10: for every JSON value that is neither a string, nor an array, nor
an object (null, boolean, integer, double, binary), `PropFromJson` returns
no property type and reports an "unknown_type" error naming the unexpected
JSON value type, regardless of the base schema. -/
theorem c10_propFromJson_rejects_scalars :
    (∀ base, propFromJson .null base =
      .error [("unknown_type",
        "Unexpected JSON value type: " ++ jsonTypeName .null)]) ∧
    (∀ base bv, propFromJson (.boolean bv) base =
      .error [("unknown_type",
        "Unexpected JSON value type: " ++ jsonTypeName (.boolean bv))]) ∧
    (∀ base n, propFromJson (.integer n) base =
      .error [("unknown_type",
        "Unexpected JSON value type: " ++ jsonTypeName (.integer n))]) ∧
    (∀ base d, propFromJson (.double d) base =
      .error [("unknown_type",
        "Unexpected JSON value type: " ++ jsonTypeName (.double d))]) ∧
    (∀ base, propFromJson .binary base =
      .error [("unknown_type",
        "Unexpected JSON value type: " ++ jsonTypeName .binary)]) := by
  refine ⟨?_, ?_, ?_, ?_, ?_⟩ <;> intros <;> simp [propFromJson, jsonTypeName]

/-- C9 counterexample: a property defined as an empty JSON array parsed
against an Int base schema does not fail with "no_type_info" — the base
schema supplies the element kind and parsing succeeds, contradicting the
claim that an empty array always fails. -/
theorem c9_counterexample_empty_array_with_base :
    (propFromJson (.list []) (some (createSkeleton .intT))).isOk = true := by
  simp [propFromJson, detectArrayType, createSkeleton, PropType.vtype,
    typeToString, createPropType, createPropTypeFuel, splitAtFirstDot,
    splitFirst, typeFromString, fromJsonDict, fromJsonDictCore, jlookup,
    ownKeysOf, hasKey, isListAt, isDictAt, isBoolAt, Except.isOk,
    PropType.required, PropType.enumVals, PropType.defVal, PropType.objExtra,
    PropType.minimum, PropType.maximum, Except.toBool]

/-- C9 (amended): when no base schema is supplied, the element kind of an
array-shorthand property definition is detected from the first element
(bool, int, double, string, object, or a one-level nested array), and
parsing fails with "no_type_info" when the array is empty, when the first
element is of unsupported kind (null, binary), or when the first element is
an array whose own first element is again an array; when a base schema is
supplied, the kind is taken from the base schema instead. -/
theorem c9_array_shorthand_detection :
    (propFromJson (.list []) none = .error [noTypeInfoErr]) ∧
    (∀ tl, propFromJson (.list (.null :: tl)) none = .error [noTypeInfoErr]) ∧
    (∀ tl, propFromJson (.list (.binary :: tl)) none =
      .error [noTypeInfoErr]) ∧
    (∀ xs tl2 tl, propFromJson (.list ((.list ((.list xs) :: tl2)) :: tl)) none =
      .error [noTypeInfoErr]) ∧
    (∀ bv tl, detectArrayType (.boolean bv :: tl) none true =
      typeToString .booleanT) ∧
    (∀ n tl, detectArrayType (.integer n :: tl) none true =
      typeToString .intT) ∧
    (∀ d tl, detectArrayType (.double d :: tl) none true =
      typeToString .doubleT) ∧
    (∀ s tl, detectArrayType (.string s :: tl) none true =
      typeToString .stringT) ∧
    (∀ es tl, detectArrayType (.dict es :: tl) none true =
      typeToString .objectT) ∧
    (∀ inner tl, detectArrayType (.list inner :: tl) none true =
      (if detectArrayType inner none false = "" then ""
       else typeToString .arrayT ++ "." ++ detectArrayType inner none false)) ∧
    (∀ l b aa, detectArrayType l (some b) aa = typeToString b.vtype) := by
  refine ⟨?_, ?_, ?_, ?_, ?_, ?_, ?_, ?_, ?_, ?_, ?_⟩ <;> intros <;>
    simp [propFromJson, detectArrayType]

/-- C2: type detection for an object-shaped property definition without an
explicit "type" key resolves numeric kinds in this precedence: a present
bound with a Double base schema detects Double even when both bounds are
integers; otherwise a double-typed bound detects Double; otherwise any
present bound detects Int.  In particular minimum 0 / maximum 100 with no
base schema detects Int, minimum 0.0 / maximum 1.0 detects Double, and
minimum 0 / maximum 0 against a Double base schema detects Double. -/
theorem c2_detection_precedence :
    (∀ entries bp, (hasKey entries "minimum" = true ∨
        hasKey entries "maximum" = true) →
      bp.vtype = .doubleT →
      detectObjectType entries (some bp) = typeToString .doubleT) ∧
    (∀ entries base, baseIsDouble base = false →
      (isDoubleAt entries "minimum" = true ∨
        isDoubleAt entries "maximum" = true) →
      detectObjectType entries base = typeToString .doubleT) ∧
    (∀ entries base, baseIsDouble base = false →
      (hasKey entries "minimum" = true ∨ hasKey entries "maximum" = true) →
      isDoubleAt entries "minimum" = false →
      isDoubleAt entries "maximum" = false →
      detectObjectType entries base = typeToString .intT) ∧
    detectObjectType [("minimum", .integer 0), ("maximum", .integer 100)]
      none = typeToString .intT ∧
    detectObjectType [("minimum", .double 0), ("maximum", .double 1)]
      none = typeToString .doubleT ∧
    detectObjectType [("minimum", .integer 0), ("maximum", .integer 0)]
      (some (createSkeleton .doubleT)) = typeToString .doubleT := by
  refine ⟨?_, ?_, ?_, ?_, ?_, ?_⟩
  · intro entries bp h1 h2
    rcases h1 with h | h <;> simp [detectObjectType, h, baseIsDouble, h2]
  · intro entries base hb h1
    by_cases hm : isDoubleAt entries "minimum" = true
    · simp [detectObjectType, hb, hm]
    · rcases h1 with h | h
      · exact absurd h hm
      · simp [detectObjectType, hb, hm, h]
  · intro entries base hb h1 hm hx
    rcases h1 with h | h <;> simp [detectObjectType, hb, h, hm, hx]
  · simp [detectObjectType, hasKey, jlookup, isDoubleAt, baseIsDouble,
      typeToString]
  · simp [detectObjectType, hasKey, jlookup, isDoubleAt, baseIsDouble,
      typeToString]
  · simp [detectObjectType, hasKey, jlookup, isDoubleAt, baseIsDouble,
      createSkeleton, PropType.vtype, typeToString]

/-- Witness for C2: a single integer minimum against a Double base schema
detects Double. -/
theorem c2_witness :
    detectObjectType [("minimum", .integer 3)] (some (createSkeleton .doubleT)) =
      typeToString .doubleT :=
  c2_detection_precedence.1 [("minimum", .integer 3)] (createSkeleton .doubleT)
    (Or.inl (by rfl)) (by rfl)

mutual
theorem clone_id : ∀ p : PropType, PropType.clone p = p
  | .mk _ _ _ _ _ _ _ _ _ _ op _ it => by
    cases op with
    | none =>
      cases it with
      | none => simp [PropType.clone]
      | some q => simp [PropType.clone, clone_id q]
    | some l =>
      cases it with
      | none => simp [PropType.clone, cloneProps_id l]
      | some q => simp [PropType.clone, clone_id q, cloneProps_id l]
theorem cloneProps_id : ∀ l : List (String × PropType), cloneProps l = l
  | [] => by simp [cloneProps]
  | (_, p) :: rest => by simp [cloneProps, clone_id p, cloneProps_id rest]
end

theorem schema_clone_id (s : ObjectSchema) : s.clone = s := by
  cases s with
  | mk props ex => simp [ObjectSchema.clone, cloneProps_id props]

/-- C8: cloning an object schema yields a schema with identical serialized
JSON in both full and minimal modes and the same extra-properties flag; the
clone is a deep structural duplicate of the original (every property type
rebuilt), so operations on the clone are operations on a distinct value
and cannot change the original's properties or serialization. -/
theorem c8_clone_identity (s : ObjectSchema) :
    s.clone.toJson true = s.toJson true ∧
    s.clone.toJson false = s.toJson false ∧
    s.clone.extra_properties_allowed = s.extra_properties_allowed ∧
    s.clone = s := by
  have h : s.clone = s := schema_clone_id s
  exact ⟨by rw [h], by rw [h], by rw [h], h⟩

/-- C6: a failing load leaves the prior contents unchanged — both
`ObjectSchema::FromJson` (which parses into a local property list and only
commits it on success) and `CommandDictionary::LoadCommands` return the
target exactly as it was together with the error. -/
theorem c6_load_failure_atomic :
    (∀ (s : ObjectSchema) entries base e s2,
      s.fromJsonInto entries base = (some e, s2) → s2 = s) ∧
    (∀ (d : CommandDictionary) tree base e d2,
      loadCommandsInto d tree base = (some e, d2) → d2 = d) := by
  constructor
  · intro s entries base e s2 h
    cases hx : schemaPropsFromJson entries base <;>
      simp [ObjectSchema.fromJsonInto, hx] at h
    exact h.2.symm
  · intro d tree base e d2 h
    cases hx : d.loadCommands tree base <;>
      simp [loadCommandsInto, hx] at h
    exact h.2.symm

/-- Witness for C6: a property defined by a JSON null makes the schema load
fail, and the target schema is returned unchanged. -/
theorem c6_witness :
    (ObjectSchema.fromJsonInto emptySchema [("y", JsonValue.null)] none).2 =
      emptySchema :=
  c6_load_failure_atomic.1 emptySchema [("y", JsonValue.null)] none
    [("invalid_parameter_definition", "Error in definition of property y"),
     ("unknown_type", "Unexpected JSON value type: Null")]
    (ObjectSchema.fromJsonInto emptySchema [("y", JsonValue.null)] none).2
    (by simp [ObjectSchema.fromJsonInto, schemaPropsFromJson, propFromJson,
      jsonTypeName, addErr, emptySchema])

theorem splitFirst_eq_none_of_not_contains (c : Char) (l : List Char)
    (h : l.contains c = false) : splitFirst c l = none := by
  induction l with
  | nil => simp [splitFirst]
  | cons ch rest ih =>
    simp only [List.contains_cons, Bool.or_eq_false_iff] at h
    have hne : ¬ch = c := by
      intro hc
      subst hc
      simp at h
    simp [splitFirst, hne, ih h.2]

/-- C5: `SetPropertyValue` validation — an empty property name fails with
"property_name_missing"; a name with no dot separator fails with
"package_name_missing"; a name whose package part is not a registered
package, or whose property part is not declared in that package's schema,
fails with "property_not_defined"; in every failing case the state manager
(value store and change queue included) is returned exactly unchanged. -/
theorem c5_set_property_validation :
    (∀ (mgr : StateManager) v ts, mgr.setPropertyValueInto "" v ts =
      (some [("property_name_missing", "Property name is missing")], mgr)) ∧
    (∀ (mgr : StateManager) name v ts, ¬name = "" →
      name.toList.contains '.' = false →
      mgr.setPropertyValueInto name v ts =
        (some [("package_name_missing",
          "Package name is missing in the property name")], mgr)) ∧
    (∀ (mgr : StateManager) name pkgc propc v ts, ¬name = "" →
      splitFirst '.' name.toList = some (pkgc, propc) →
      alookup (String.mk pkgc) mgr.packages = none →
      mgr.setPropertyValueInto name v ts =
        (some [("property_not_defined",
          "State property " ++ name ++ " is not defined")], mgr)) ∧
    (∀ (mgr : StateManager) name pkgc propc schema v ts, ¬name = "" →
      splitFirst '.' name.toList = some (pkgc, propc) →
      alookup (String.mk pkgc) mgr.packages = some schema →
      schema.getProp (String.mk propc) = none →
      mgr.setPropertyValueInto name v ts =
        (some [("property_not_defined",
          "State property " ++ name ++ " is not defined")], mgr)) := by
  refine ⟨?_, ?_, ?_, ?_⟩
  · intro mgr v ts
    simp [StateManager.setPropertyValueInto]
  · intro mgr name v ts hne hdot
    have hd : splitFirst '.' name.data = none :=
      splitFirst_eq_none_of_not_contains '.' name.toList hdot
    simp [StateManager.setPropertyValueInto, hne, hd]
  · intro mgr name pkgc propc v ts hne hsplit hpkg
    have hs : splitFirst '.' name.data = some (pkgc, propc) := hsplit
    simp [StateManager.setPropertyValueInto, hne, hs, hpkg]
  · intro mgr name pkgc propc schema v ts hne hsplit hpkg hprop
    have hs : splitFirst '.' name.data = some (pkgc, propc) := hsplit
    simp [StateManager.setPropertyValueInto, hne, hs, hpkg, hprop]

/-- Witness for C5: setting a dot-less property name on a concrete state
manager fails with "package_name_missing" and leaves the manager
unchanged. -/
theorem c5_witness :
    wMgr.setPropertyValueInto "state_property" (.integer 0) 1 =
      (some [("package_name_missing",
        "Package name is missing in the property name")], wMgr) :=
  c5_set_property_validation.2.1 wMgr "state_property" (.integer 0) 1
    (by decide) (by decide)

/-- C4: command naming on load — an empty command name fails with
"invalid_command_name"; with a base dictionary, a command whose
fully-qualified name has no base entry and whose name does not start with
an underscore fails with "invalid_command_name"; a command whose name
starts with an underscore is accepted as a custom command. -/
theorem c4_command_naming :
    (∀ (self : CommandDictionary) base pkg cjson,
      self.loadCommands [(pkg, .dict [("", cjson)])] base =
        .error [("invalid_command_name",
          "Unnamed command encountered in package " ++ pkg)]) ∧
    (∀ (self bd : CommandDictionary) pkg cname centries,
      ¬cname = "" → firstCharIs '_' cname = false →
      bd.findCommand (pkg ++ "." ++ cname) = none →
      self.loadCommands [(pkg, .dict [(cname, .dict centries)])] (some bd) =
        .error [("invalid_command_name",
          "Unknown command " ++ (pkg ++ "." ++ cname))]) ∧
    (∀ (self bd : CommandDictionary) pkg cname,
      ¬cname = "" → firstCharIs '_' cname = true →
      self.findCommand (pkg ++ "." ++ cname) = none →
      ∃ cd, self.loadCommands [(pkg, .dict [(cname, .dict [])])] (some bd) =
        .ok ⟨(pkg ++ "." ++ cname, cd) :: self.definitions⟩) := by
  refine ⟨?_, ?_, ?_⟩
  · intro self base pkg cjson
    simp [CommandDictionary.loadCommands, loadPackages, loadPackageCommands,
      loadOneCommand]
  · intro self bd pkg cname centries hne hus hbase
    simp [CommandDictionary.loadCommands, loadPackages, loadPackageCommands,
      loadOneCommand, hne, hus, hbase]
  · intro self bd pkg cname hne hus hself
    cases hb : bd.findCommand (pkg ++ "." ++ cname) with
    | none =>
      refine ⟨⟨emptySchema, emptySchema, emptySchema, visibilityAll,
        UserRole.user⟩, ?_⟩
      simp [CommandDictionary.loadCommands, loadPackages, loadPackageCommands,
        loadOneCommand, hne, hus, hb, hself, parseCommandDef, parseSection,
        parseVisibilitySection, parseRoleSection, jlookup, visibilityAll,
        bind, Except.bind, pure, Except.pure]
    | some bdef =>
      refine ⟨⟨bdef.parameters.clone, bdef.progress.clone, bdef.results.clone,
        bdef.visibility, bdef.minimalRole⟩, ?_⟩
      simp [CommandDictionary.loadCommands, loadPackages, loadPackageCommands,
        loadOneCommand, hne, hus, hb, hself, parseCommandDef, parseSection,
        parseVisibilitySection, parseRoleSection, jlookup, bind, Except.bind,
        pure, Except.pure]

/-- Witness for C4: loading base._jump with empty body against a concrete
base dictionary succeeds as a custom command. -/
theorem c4_witness :
    ∃ cd, wBdict.loadCommands [("base", .dict [("_jump", .dict [])])]
        (some wBdict) = .ok ⟨("base" ++ "." ++ "_jump", cd) ::
          wBdict.definitions⟩ :=
  c4_command_naming.2.2 wBdict wBdict "base" "_jump" (by decide) (by decide)
    (by simp [CommandDictionary.findCommand, wBdict, alookup])


theorem fromJsonDictCore_vtype {skel : PropType} {entries : JDict}
    {base : Option PropType} {seed : PropType} {p : PropType}
    (h : fromJsonDictCore skel entries base seed = .ok p) :
    p.vtype = skel.vtype := by
  cases base <;>
    (simp only [fromJsonDictCore] at h
     repeat' split at h
     all_goals
       first
       | exact Except.noConfusion h
       | (injection h with h2
          rw [← h2]
          rfl))

theorem fromJsonDict_base_vtype {skel : PropType} {entries : JDict}
    {b : PropType} {p : PropType}
    (h : fromJsonDict skel entries (some b) = .ok p) : p.vtype = b.vtype := by
  simp only [fromJsonDict] at h
  split at h
  next heq => rw [fromJsonDictCore_vtype h, heq]
  next => simp at h

theorem propFromJson_base_vtype {v : JsonValue} {b : PropType} {p : PropType}
    (h : propFromJson v (some b) = .ok p) : p.vtype = b.vtype := by
  cases v with
  | string s =>
    rw [propFromJson.eq_1] at h
    cases hc : createPropType s with
    | ok skel => rw [hc] at h; exact fromJsonDict_base_vtype h
    | error e => rw [hc] at h; simp at h
  | list l =>
    rw [propFromJson.eq_2] at h
    split at h
    · simp at h
    · cases hc : createPropType (detectArrayType l (some b) true) with
      | ok skel => rw [hc] at h; exact fromJsonDict_base_vtype h
      | error e => rw [hc] at h; simp at h
  | dict entries =>
    rw [propFromJson.eq_4] at h
    cases hty : jlookup "type" entries with
    | some val =>
      cases val with
      | string s =>
        simp only [hty] at h
        cases hc : createPropType s with
        | ok skel => rw [hc] at h; exact fromJsonDict_base_vtype h
        | error e => rw [hc] at h; simp at h
      | null => simp only [hty] at h; simp at h
      | boolean bb => simp only [hty] at h; simp at h
      | integer n => simp only [hty] at h; simp at h
      | double d => simp only [hty] at h; simp at h
      | binary => simp only [hty] at h; simp at h
      | list l2 => simp only [hty] at h; simp at h
      | dict es => simp only [hty] at h; simp at h
    | none =>
      simp only [hty] at h
      split at h
      next => simp at h
      next s heq =>
        cases hc : createPropType s with
        | ok skel =>
          rw [hc] at h
          exact fromJsonDict_base_vtype h
        | error e => rw [hc] at h; simp at h
  | null => simp [propFromJson] at h
  | boolean bb => simp [propFromJson] at h
  | integer n => simp [propFromJson] at h
  | double d => simp [propFromJson] at h
  | binary => simp [propFromJson] at h

theorem schemaProps_kind_preserved {bs : ObjectSchema} :
    ∀ {entries : JDict} {props : List (String × PropType)},
    schemaPropsFromJson entries (some bs) = .ok props →
    ∀ name p bp, plookup name props = some p → bs.getProp name = some bp →
      p.vtype = bp.vtype := by
  intro entries
  induction entries with
  | nil =>
    intro props h name p bp hp hbp
    simp [schemaPropsFromJson] at h
    subst h
    simp [plookup] at hp
  | cons kv rest ih =>
    obtain ⟨k, v⟩ := kv
    intro props h name p bp hp hbp
    simp only [schemaPropsFromJson] at h
    cases hpv : propFromJson v (bs.getProp k) with
    | error e => rw [hpv] at h; simp at h
    | ok p0 =>
      rw [hpv] at h
      cases hrest : schemaPropsFromJson rest (some bs) with
      | error e => rw [hrest] at h; simp at h
      | ok props0 =>
        rw [hrest] at h
        simp only [Except.ok.injEq] at h
        subst h
        by_cases hk : k = name
        · subst hk
          simp only [plookup, if_pos rfl] at hp
          cases hp
          rw [hbp] at hpv
          exact propFromJson_base_vtype hpv
        · simp only [plookup, if_neg hk] at hp
          exact ih hrest name p bp hp hbp

theorem parseSection_kind_preserved {key : String} {centries : JDict}
    {bs : ObjectSchema} {schema : ObjectSchema}
    (h : parseSection key centries (some bs) = .ok schema) :
    ∀ name p bp, schema.getProp name = some p → bs.getProp name = some bp →
      p.vtype = bp.vtype := by
  intro name p bp hp hbp
  unfold parseSection at h
  cases hj : jlookup key centries with
  | none =>
    rw [hj] at h
    simp only [Except.ok.injEq] at h
    subst h
    rw [schema_clone_id bs] at hp
    rw [hp] at hbp
    cases hbp
    rfl
  | some v =>
    rw [hj] at h
    cases v with
    | dict es =>
      simp only at h
      cases hsp : schemaPropsFromJson es (some bs) with
      | error e => rw [hsp] at h; simp at h
      | ok props =>
        rw [hsp] at h
        simp only [Except.ok.injEq] at h
        subst h
        exact schemaProps_kind_preserved hsp name p bp hp hbp
    | null => simp at h
    | boolean bb => simp at h
    | integer n => simp at h
    | double d => simp at h
    | string s => simp at h
    | binary => simp at h
    | list l => simp at h

theorem createPropType_of_typeFromString {tstr : String} {t : ValueType}
    (h : typeFromString tstr = some t) :
    createPropType tstr = .ok (createSkeleton t) := by
  unfold typeFromString at h
  split_ifs at h with h1 h2 h3 h4 h5 h6 <;>
    (injection h with h0
     subst h0) <;>
    first
    | (subst h1; rfl)
    | (subst h2; rfl)
    | (subst h3; rfl)
    | (subst h4; rfl)
    | (subst h5; rfl)
    | (subst h6; rfl)

theorem parseCommandDef_kind_preserved {centries : JDict}
    {bdef cd : CommandDefinition}
    (h : parseCommandDef centries (some bdef) = .ok cd) :
    (∀ name p bp, cd.parameters.getProp name = some p →
      bdef.parameters.getProp name = some bp → p.vtype = bp.vtype) ∧
    (∀ name p bp, cd.progress.getProp name = some p →
      bdef.progress.getProp name = some bp → p.vtype = bp.vtype) ∧
    (∀ name p bp, cd.results.getProp name = some p →
      bdef.results.getProp name = some bp → p.vtype = bp.vtype) := by
  unfold parseCommandDef at h
  simp only [Option.map_some'] at h
  cases hp : parseSection "parameters" centries (some bdef.parameters) with
  | error e => rw [hp] at h; simp [bind, Except.bind] at h
  | ok params =>
    rw [hp] at h
    simp only [bind, Except.bind] at h
    cases hg : parseSection "progress" centries (some bdef.progress) with
    | error e => rw [hg] at h; simp at h
    | ok prog =>
      rw [hg] at h
      cases hr : parseSection "results" centries (some bdef.results) with
      | error e => rw [hr] at h; simp at h
      | ok res =>
        rw [hr] at h
        cases hv : parseVisibilitySection centries (some bdef) with
        | error e => rw [hv] at h; simp at h
        | ok vis =>
          rw [hv] at h
          cases hro : parseRoleSection centries (some bdef) with
          | error e => rw [hro] at h; simp at h
          | ok role =>
            rw [hro] at h
            simp only [pure, Except.pure, Except.ok.injEq] at h
            subst h
            exact ⟨parseSection_kind_preserved hp,
              parseSection_kind_preserved hg,
              parseSection_kind_preserved hr⟩

theorem loadOneCommand_invariant {acc acc' : CommandDictionary}
    {bd : CommandDictionary} {pkg cname : String} {cjson : JsonValue}
    (h : loadOneCommand acc (some bd) pkg cname cjson = .ok acc') :
    ∀ full cd, acc'.findCommand full = some cd →
      acc.findCommand full = some cd ∨ KindPreserved bd full cd := by
  unfold loadOneCommand at h
  split at h
  · simp at h
  · cases cjson with
    | dict centries =>
      simp only at h
      split at h
      · simp at h
      · cases hpd : parseCommandDef centries (bd.findCommand (pkg ++ "." ++ cname)) with
        | error e => rw [hpd] at h; simp at h
        | ok cd0 =>
          rw [hpd] at h
          cases hfc : acc.findCommand (pkg ++ "." ++ cname) with
          | some old => rw [hfc] at h; simp at h
          | none =>
            rw [hfc] at h
            simp only [Except.ok.injEq] at h
            subst h
            intro full cd hcd
            simp only [CommandDictionary.findCommand, alookup] at hcd
            by_cases hfull : (pkg ++ "." ++ cname) = full
            · rw [if_pos hfull] at hcd
              cases hcd
              right
              intro bdef hbdef
              rw [← hfull] at hbdef
              rw [hbdef] at hpd
              exact parseCommandDef_kind_preserved hpd
            · rw [if_neg hfull] at hcd
              exact Or.inl hcd
    | null => simp at h
    | boolean bb => simp at h
    | integer n => simp at h
    | double d => simp at h
    | string s => simp at h
    | binary => simp at h
    | list l => simp at h

theorem loadPackageCommands_invariant {bd : CommandDictionary} {pkg : String} :
    ∀ {cmds : List (String × JsonValue)} {acc acc' : CommandDictionary},
    loadPackageCommands acc (some bd) pkg cmds = .ok acc' →
    ∀ full cd, acc'.findCommand full = some cd →
      acc.findCommand full = some cd ∨ KindPreserved bd full cd := by
  intro cmds
  induction cmds with
  | nil =>
    intro acc acc' h full cd hcd
    simp only [loadPackageCommands, Except.ok.injEq] at h
    subst h
    exact Or.inl hcd
  | cons kv rest ih =>
    obtain ⟨cname, cjson⟩ := kv
    intro acc acc' h full cd hcd
    simp only [loadPackageCommands] at h
    cases h1 : loadOneCommand acc (some bd) pkg cname cjson with
    | error e => rw [h1] at h; simp at h
    | ok a1 =>
      rw [h1] at h
      rcases ih h full cd hcd with h2 | h2
      · exact loadOneCommand_invariant h1 full cd h2
      · exact Or.inr h2

theorem loadPackages_invariant {bd : CommandDictionary} :
    ∀ {tree : JDict} {acc acc' : CommandDictionary},
    loadPackages acc (some bd) tree = .ok acc' →
    ∀ full cd, acc'.findCommand full = some cd →
      acc.findCommand full = some cd ∨ KindPreserved bd full cd := by
  intro tree
  induction tree with
  | nil =>
    intro acc acc' h full cd hcd
    simp only [loadPackages, Except.ok.injEq] at h
    subst h
    exact Or.inl hcd
  | cons kv rest ih =>
    obtain ⟨pkg, pkgVal⟩ := kv
    intro acc acc' h full cd hcd
    simp only [loadPackages] at h
    cases pkgVal with
    | dict cmds =>
      simp only at h
      cases h1 : loadPackageCommands acc (some bd) pkg cmds with
      | error e => rw [h1] at h; simp at h
      | ok a1 =>
        rw [h1] at h
        rcases ih h full cd hcd with h2 | h2
        · exact loadPackageCommands_invariant h1 full cd h2
        · exact Or.inr h2
    | null => simp at h
    | boolean bb => simp at h
    | integer n => simp at h
    | double d => simp at h
    | string s => simp at h
    | binary => simp at h
    | list l => simp at h

/-- C1: redefining a parameter or result of a standard command with a kind
differing from the base schema's kind makes `LoadCommands` fail, with the
outermost error "invalid_object_schema", its inner error
"invalid_parameter_definition", and the innermost (first) error
"param_type_changed"; and whenever a `LoadCommands` call against a base
dictionary succeeds, every loaded definition preserves, for each
parameter, progress and result property that the base command's
corresponding schema declares, the base schema's kind. -/
theorem c1_kind_stability :
    (∀ (self bdict : CommandDictionary) (bdef : CommandDefinition)
        (bp : PropType) (pkg cname pname tstr : String) (t : ValueType),
      ¬cname = "" →
      bdict.findCommand (pkg ++ "." ++ cname) = some bdef →
      bdef.parameters.getProp pname = some bp →
      typeFromString tstr = some t →
      ¬t = bp.vtype →
      ∃ e, self.loadCommands
          [(pkg, .dict [(cname, .dict
            [("parameters", .dict [(pname, .string tstr)])])])] (some bdict) =
          .error e ∧
        errCode e = "invalid_object_schema" ∧
        innerCode e = "invalid_parameter_definition" ∧
        firstCode e = "param_type_changed") ∧
    (∀ (self bdict : CommandDictionary) (bdef : CommandDefinition)
        (bp : PropType) (pkg cname pname tstr : String) (t : ValueType),
      ¬cname = "" →
      bdict.findCommand (pkg ++ "." ++ cname) = some bdef →
      bdef.results.getProp pname = some bp →
      typeFromString tstr = some t →
      ¬t = bp.vtype →
      ∃ e, self.loadCommands
          [(pkg, .dict [(cname, .dict
            [("results", .dict [(pname, .string tstr)])])])] (some bdict) =
          .error e ∧
        errCode e = "invalid_object_schema" ∧
        innerCode e = "invalid_parameter_definition" ∧
        firstCode e = "param_type_changed") ∧
    (∀ (self bdict dict' : CommandDictionary) (tree : JDict),
      self.loadCommands tree (some bdict) = .ok dict' →
      ∀ full cd, dict'.findCommand full = some cd →
        self.findCommand full = some cd ∨ KindPreserved bdict full cd) := by
  refine ⟨?_, ?_, ?_⟩
  · intro self bdict bdef bp pkg cname pname tstr t hne hfind hprop htf hnt
    refine ⟨addErr "invalid_object_schema"
      ("Invalid definition of the " ++ "parameters" ++ " of the command")
      (addErr "invalid_parameter_definition"
        ("Error in definition of property " ++ pname)
        [paramTypeChangedErr bp.vtype t]), ?_, rfl, rfl, rfl⟩
    have hct : createPropType tstr = .ok (createSkeleton t) :=
      createPropType_of_typeFromString htf
    obtain ⟨bt, br, bb2, bo, bmn, bmx, bml, bxl, bev, bdv, bop, bex, bit⟩ := bp
    simp only [PropType.vtype] at hnt
    simp [CommandDictionary.loadCommands, loadPackages, loadPackageCommands,
      loadOneCommand, hne, hfind, parseCommandDef, parseSection,
      schemaPropsFromJson, propFromJson, hct, fromJsonDict, hnt, hprop,
      jlookup, bind, Except.bind, pure, Except.pure, addErr,
      Option.isSome, Option.isNone, createSkeleton, PropType.vtype]
  · intro self bdict bdef bp pkg cname pname tstr t hne hfind hprop htf hnt
    refine ⟨addErr "invalid_object_schema"
      ("Invalid definition of the " ++ "results" ++ " of the command")
      (addErr "invalid_parameter_definition"
        ("Error in definition of property " ++ pname)
        [paramTypeChangedErr bp.vtype t]), ?_, rfl, rfl, rfl⟩
    have hct : createPropType tstr = .ok (createSkeleton t) :=
      createPropType_of_typeFromString htf
    obtain ⟨bt, br, bb2, bo, bmn, bmx, bml, bxl, bev, bdv, bop, bex, bit⟩ := bp
    simp only [PropType.vtype] at hnt
    simp [CommandDictionary.loadCommands, loadPackages, loadPackageCommands,
      loadOneCommand, hne, hfind, parseCommandDef, parseSection,
      schemaPropsFromJson, propFromJson, hct, fromJsonDict, hnt, hprop,
      jlookup, bind, Except.bind, pure, Except.pure, addErr,
      Option.isSome, Option.isNone, createSkeleton, PropType.vtype]
  · intro self bdict dict' tree h
    exact loadPackages_invariant h

/-- Witness for C1: redefining base.reboot's integer delay parameter as a
string against a concrete base dictionary fails with the claimed error
chain, and a successful overlay load against the same base preserves the
delay parameter's kind. -/
theorem c1_witness :
    ∃ e, wBdict.loadCommands
        [("base", .dict [("reboot", .dict
          [("parameters", .dict [("delay", .string "string")])])])]
        (some wBdict) = .error e ∧
      errCode e = "invalid_object_schema" ∧
      innerCode e = "invalid_parameter_definition" ∧
      firstCode e = "param_type_changed" :=
  c1_kind_stability.1 wBdict wBdict wBdef (createSkeleton .intT)
    "base" "reboot" "delay" "string" .stringT (by decide)
    (by simp [CommandDictionary.findCommand, wBdict, alookup])
    (by simp [wBdef, ObjectSchema.getProp, plookup])
    (by rfl) (by decide)

theorem createPropType_typeToString (t : ValueType) :
    createPropType (typeToString t) = .ok (createSkeleton t) := by
  cases t <;> rfl

theorem ownKeysOf_emit (x : JsonValue) (t : ValueType) (r b : Bool)
    (o : List String) (mn mx ml xl : Option JsonValue)
    (ev : Option (List JsonValue)) (dv : Option JsonValue)
    (op : Option (List (String × PropType))) (ex : Bool)
    (it : Option PropType) :
    ownKeysOf t (("type", x) ::
      toJsonFullFields (.mk t r b o mn mx ml xl ev dv op ex it)) =
      refreshOwn t r mn mx ml xl ev dv op it := by
  unfold ownKeysOf refreshOwn
  simp only [hasKey, isDictAt, isListAt, isBoolAt,
    jlookup_emit_min, jlookup_emit_max, jlookup_emit_minLength,
    jlookup_emit_maxLength, jlookup_emit_items, jlookup_emit_properties,
    jlookup_emit_enum, jlookup_emit_default, jlookup_emit_required]
  cases it <;> cases op <;> cases ev <;> cases r <;> simp

theorem good_createSkeleton (t : ValueType) : GoodProp (createSkeleton t) := by
  cases t <;> simp [GoodProp, createSkeleton, GoodProps, GoodOptProp]

theorem good_createPropTypeFuel :
    ∀ (f : Nat) (s : String) (p : PropType),
    createPropTypeFuel f s = .ok p → GoodProp p := by
  intro f
  induction f with
  | zero => intro s p h; simp [createPropTypeFuel] at h
  | succ f ih =>
    intro s p h
    simp only [createPropTypeFuel] at h
    split at h
    · simp at h
    · split at h
      · cases hc : createPropTypeFuel f (splitAtFirstDot s).2 with
        | error e => rw [hc] at h; simp at h
        | ok item =>
          rw [hc] at h
          simp only [Except.ok.injEq] at h
          subst h
          have hitem := ih _ _ hc
          simp [GoodProp, setItemType, createSkeleton, GoodOptProp, hitem]
      · simp only [Except.ok.injEq] at h
        subst h
        exact good_createSkeleton _

mutual
theorem semEq_refresh : ∀ p : PropType, semEq (refresh p) p
  | .mk _ _ _ _ _ _ _ _ _ _ op _ it => by
    cases op with
    | none =>
      cases it with
      | none => simp [refresh, semEq]
      | some q => simp [refresh, semEq, semEq_refresh q]
    | some l =>
      cases it with
      | none => simp [refresh, semEq, semEqProps_refresh l]
      | some q => simp [refresh, semEq, semEq_refresh q, semEqProps_refresh l]
theorem semEqProps_refresh :
    ∀ l : List (String × PropType), semEqProps (refreshProps l) l
  | [] => by simp [refreshProps, semEqProps]
  | (n, p) :: rest => by
    simp [refreshProps, semEqProps, semEq_refresh p, semEqProps_refresh rest]
end

set_option maxHeartbeats 1000000 in
mutual
theorem parse_emit : ∀ p : PropType, GoodProp p →
    propFromJson (PropType.toJsonFull p) none = .ok (refresh p)
  | .mk t r b o mn mx ml xl ev dv op ex it, hg => by
    cases t with
    | intT =>
      simp only [GoodProp] at hg
      obtain ⟨hex, hml, hxl, hop, hit⟩ := hg
      subst hex hml hxl hop hit
      simp only [PropType.toJsonFull, PropType.vtype]
      rw [propFromJson.eq_3, jlookup_emit_type]
      simp only [createPropType_typeToString]
      simp only [fromJsonDict]
      simp [fromJsonDictCore, createSkeleton, PropType.vtype, PropType.required,
        PropType.basedOnSchema, PropType.minimum, PropType.maximum,
        PropType.minLength, PropType.maxLength, PropType.enumVals,
        PropType.defVal, PropType.objProps, PropType.objExtra,
        PropType.itemType, jlookup_emit_min, jlookup_emit_max,
        jlookup_emit_minLength, jlookup_emit_maxLength, jlookup_emit_items,
        jlookup_emit_properties, jlookup_emit_enum, jlookup_emit_default,
        jlookup_emit_required, ownKeysOf_emit, refresh, refreshOwn]
      cases r <;> cases ev <;> cases dv <;> cases mn <;> cases mx <;> simp
    | doubleT =>
      simp only [GoodProp] at hg
      obtain ⟨hex, hml, hxl, hop, hit⟩ := hg
      subst hex hml hxl hop hit
      simp only [PropType.toJsonFull, PropType.vtype]
      rw [propFromJson.eq_3, jlookup_emit_type]
      simp only [createPropType_typeToString]
      simp only [fromJsonDict]
      simp [fromJsonDictCore, createSkeleton, PropType.vtype, PropType.required,
        PropType.basedOnSchema, PropType.minimum, PropType.maximum,
        PropType.minLength, PropType.maxLength, PropType.enumVals,
        PropType.defVal, PropType.objProps, PropType.objExtra,
        PropType.itemType, jlookup_emit_min, jlookup_emit_max,
        jlookup_emit_minLength, jlookup_emit_maxLength, jlookup_emit_items,
        jlookup_emit_properties, jlookup_emit_enum, jlookup_emit_default,
        jlookup_emit_required, ownKeysOf_emit, refresh, refreshOwn]
      cases r <;> cases ev <;> cases dv <;> cases mn <;> cases mx <;> simp
    | booleanT =>
      simp only [GoodProp] at hg
      obtain ⟨hex, hmn, hmx, hml, hxl, hop, hit⟩ := hg
      subst hex hmn hmx hml hxl hop hit
      simp only [PropType.toJsonFull, PropType.vtype]
      rw [propFromJson.eq_3, jlookup_emit_type]
      simp only [createPropType_typeToString]
      simp only [fromJsonDict]
      simp [fromJsonDictCore, createSkeleton, PropType.vtype, PropType.required,
        PropType.basedOnSchema, PropType.minimum, PropType.maximum,
        PropType.minLength, PropType.maxLength, PropType.enumVals,
        PropType.defVal, PropType.objProps, PropType.objExtra,
        PropType.itemType, jlookup_emit_min, jlookup_emit_max,
        jlookup_emit_minLength, jlookup_emit_maxLength, jlookup_emit_items,
        jlookup_emit_properties, jlookup_emit_enum, jlookup_emit_default,
        jlookup_emit_required, ownKeysOf_emit, refresh, refreshOwn]
      cases r <;> cases ev <;> cases dv <;> simp
    | stringT =>
      simp only [GoodProp] at hg
      obtain ⟨hex, hmn, hmx, hop, hit⟩ := hg
      subst hex hmn hmx hop hit
      simp only [PropType.toJsonFull, PropType.vtype]
      rw [propFromJson.eq_3, jlookup_emit_type]
      simp only [createPropType_typeToString]
      simp only [fromJsonDict]
      simp [fromJsonDictCore, createSkeleton, PropType.vtype, PropType.required,
        PropType.basedOnSchema, PropType.minimum, PropType.maximum,
        PropType.minLength, PropType.maxLength, PropType.enumVals,
        PropType.defVal, PropType.objProps, PropType.objExtra,
        PropType.itemType, jlookup_emit_min, jlookup_emit_max,
        jlookup_emit_minLength, jlookup_emit_maxLength, jlookup_emit_items,
        jlookup_emit_properties, jlookup_emit_enum, jlookup_emit_default,
        jlookup_emit_required, ownKeysOf_emit, refresh, refreshOwn]
      cases r <;> cases ev <;> cases dv <;> cases ml <;> cases xl <;> simp
    | objectT =>
      cases op with
      | none =>
        simp only [GoodProp] at hg
        exact hg.2.2.2.2.2.2.elim
      | some l =>
        simp only [GoodProp] at hg
        obtain ⟨hex, hmn, hmx, hml, hxl, hit, hgl⟩ := hg
        subst hex hmn hmx hml hxl hit
        have hrec := parse_emit_props l hgl
        simp only [PropType.toJsonFull, PropType.vtype]
        rw [propFromJson.eq_3, jlookup_emit_type]
        simp only [createPropType_typeToString]
        simp only [fromJsonDict]
        simp [fromJsonDictCore, createSkeleton, PropType.vtype,
          PropType.required, PropType.basedOnSchema, PropType.minimum,
          PropType.maximum, PropType.minLength, PropType.maxLength,
          PropType.enumVals, PropType.defVal, PropType.objProps,
          PropType.objExtra, PropType.itemType, jlookup_emit_min,
          jlookup_emit_max, jlookup_emit_minLength, jlookup_emit_maxLength,
          jlookup_emit_items, jlookup_emit_properties, jlookup_emit_enum,
          jlookup_emit_default, jlookup_emit_required, ownKeysOf_emit,
          refresh, refreshOwn, hrec]
        cases r <;> cases ev <;> cases dv <;>
          (split
           · rename_i pents heq
             rw [jlookup_emit_properties] at heq
             simp only [Option.map_some', Option.some.injEq,
               JsonValue.dict.injEq] at heq
             subst heq
             simp [hrec]
           · rename_i hno
             exfalso
             exact hno (propsToJsonFull l)
               (by rw [jlookup_emit_properties]; rfl))
    | arrayT =>
      simp only [GoodProp] at hg
      obtain ⟨hex, hmn, hmx, hml, hxl, hop, hit⟩ := hg
      subst hex hmn hmx hml hxl hop
      cases it with
      | none =>
        simp only [PropType.toJsonFull, PropType.vtype]
        rw [propFromJson.eq_3, jlookup_emit_type]
        simp only [createPropType_typeToString]
        simp only [fromJsonDict]
        simp [fromJsonDictCore, createSkeleton, PropType.vtype,
          PropType.required, PropType.basedOnSchema, PropType.minimum,
          PropType.maximum, PropType.minLength, PropType.maxLength,
          PropType.enumVals, PropType.defVal, PropType.objProps,
          PropType.objExtra, PropType.itemType, jlookup_emit_min,
          jlookup_emit_max, jlookup_emit_minLength, jlookup_emit_maxLength,
          jlookup_emit_items, jlookup_emit_properties, jlookup_emit_enum,
          jlookup_emit_default, jlookup_emit_required, ownKeysOf_emit,
          refresh, refreshOwn]
        cases r <;> cases ev <;> cases dv <;>
          (split
           · rename_i v heq
             rw [jlookup_emit_items] at heq
             simp at heq
           · simp)
      | some q =>
        simp only [GoodOptProp] at hit
        have hrec := parse_emit q hit
        simp only [PropType.toJsonFull, PropType.vtype]
        rw [propFromJson.eq_3, jlookup_emit_type]
        simp only [createPropType_typeToString]
        simp only [fromJsonDict]
        simp [fromJsonDictCore, createSkeleton, PropType.vtype,
          PropType.required, PropType.basedOnSchema, PropType.minimum,
          PropType.maximum, PropType.minLength, PropType.maxLength,
          PropType.enumVals, PropType.defVal, PropType.objProps,
          PropType.objExtra, PropType.itemType, jlookup_emit_min,
          jlookup_emit_max, jlookup_emit_minLength, jlookup_emit_maxLength,
          jlookup_emit_items, jlookup_emit_properties, jlookup_emit_enum,
          jlookup_emit_default, jlookup_emit_required, ownKeysOf_emit,
          refresh, refreshOwn, hrec]
        cases r <;> cases ev <;> cases dv <;>
          (split
           · rename_i v heq
             rw [jlookup_emit_items] at heq
             simp only [Option.map_some', Option.some.injEq] at heq
             subst heq
             simp [hrec]
           · rename_i heq
             rw [jlookup_emit_items] at heq
             simp at heq)
theorem parse_emit_props : ∀ l : List (String × PropType), GoodProps l →
    schemaPropsFromJson (propsToJsonFull l) none = .ok (refreshProps l)
  | [], _ => by simp [propsToJsonFull, schemaPropsFromJson, refreshProps]
  | (n, p) :: rest, hg => by
    simp only [GoodProps] at hg
    have h1 := parse_emit p hg.1
    have h2 := parse_emit_props rest hg.2
    simp [propsToJsonFull, schemaPropsFromJson, refreshProps, h1, h2]
end

theorem jweight_ge_three (v : JsonValue) : 3 ≤ jweight v := by
  cases v <;> simp [jweight]

set_option maxHeartbeats 2000000 in
theorem good_bundle : ∀ n : Nat,
    (∀ v p, jweight v ≤ n → propFromJson v none = .ok p → GoodProp p) ∧
    (∀ skel entries p, 1 + rsum entries ≤ n → GoodProp skel →
      fromJsonDictCore skel entries none skel = .ok p → GoodProp p) ∧
    (∀ entries props, 1 + dweight entries ≤ n →
      schemaPropsFromJson entries none = .ok props → GoodProps props) := by
  intro n
  induction n using Nat.strong_induction_on with
  | _ n ih =>
    refine ⟨?_, ?_, ?_⟩
    · intro v p hw h
      have h3 := jweight_ge_three v
      cases v with
      | null => simp [propFromJson] at h
      | boolean bv => simp [propFromJson] at h
      | integer nv => simp [propFromJson] at h
      | double dv => simp [propFromJson] at h
      | binary => simp [propFromJson] at h
      | string s =>
        rw [propFromJson.eq_1] at h
        cases hc : createPropType s with
        | error e => rw [hc] at h; simp at h
        | ok skel =>
          rw [hc] at h
          simp only [fromJsonDict] at h
          have hsk := good_createPropTypeFuel _ _ _ hc
          exact (ih (n - 1) (by omega)).2.1 skel [] p
            (by simp [rsum]; omega) hsk h
      | list l =>
        rw [propFromJson.eq_2] at h
        split at h
        · simp at h
        · cases hc : createPropType (detectArrayType l none true) with
          | error e => rw [hc] at h; simp at h
          | ok skel =>
            rw [hc] at h
            simp only [fromJsonDict] at h
            have hsk := good_createPropTypeFuel _ _ _ hc
            exact (ih (n - 1) (by omega)).2.1 skel [("enum", .list l)] p
              (by simp [rsum]; omega) hsk h
      | dict entries =>
        rw [propFromJson.eq_3] at h
        have hwd : 1 + rsum entries < n := by
          have := rsum_le_dweight entries
          simp only [jweight] at hw
          omega
        cases hty : jlookup "type" entries with
        | some val =>
          cases val with
          | string s =>
            simp only [hty] at h
            cases hc : createPropType s with
            | error e => rw [hc] at h; simp at h
            | ok skel =>
              rw [hc] at h
              simp only [fromJsonDict] at h
              exact (ih (1 + rsum entries) hwd).2.1 skel entries p
                (le_refl _) (good_createPropTypeFuel _ _ _ hc) h
          | null => simp only [hty] at h; simp at h
          | boolean bb => simp only [hty] at h; simp at h
          | integer nn => simp only [hty] at h; simp at h
          | double dd => simp only [hty] at h; simp at h
          | binary => simp only [hty] at h; simp at h
          | list l2 => simp only [hty] at h; simp at h
          | dict es => simp only [hty] at h; simp at h
        | none =>
          simp only [hty] at h
          split at h
          · simp at h
          · rename_i s heq
            cases hc : createPropType s with
            | error e => rw [hc] at h; simp at h
            | ok skel =>
              rw [hc] at h
              simp only [fromJsonDict] at h
              exact (ih (1 + rsum entries) hwd).2.1 skel entries p
                (le_refl _) (good_createPropTypeFuel _ _ _ hc) h
    · intro skel entries p hw hgs h
      obtain ⟨t, sr, sb, so, smn, smx, sml, sxl, sev, sdv, sop, sex, sit⟩ := skel
      cases t with
      | intT =>
        simp only [GoodProp] at hgs
        obtain ⟨hex, _, _, _, _⟩ := hgs
        subst hex
        simp only [fromJsonDictCore, PropType.vtype, reduceCtorEq, reduceIte,
          true_or, or_true, false_or, or_false, if_true, if_false,
          PropType.required, PropType.enumVals, PropType.defVal,
          PropType.objExtra, PropType.minimum, PropType.maximum,
          Except.ok.injEq] at h
        subst h
        simp [GoodProp]
      | doubleT =>
        simp only [GoodProp] at hgs
        obtain ⟨hex, _, _, _, _⟩ := hgs
        subst hex
        simp only [fromJsonDictCore, PropType.vtype, reduceCtorEq, reduceIte,
          true_or, or_true, false_or, or_false, if_true, if_false,
          PropType.required, PropType.enumVals, PropType.defVal,
          PropType.objExtra, PropType.minimum, PropType.maximum,
          Except.ok.injEq] at h
        subst h
        simp [GoodProp]
      | booleanT =>
        simp only [GoodProp] at hgs
        obtain ⟨hex, _, _, _, _, _, _⟩ := hgs
        subst hex
        simp only [fromJsonDictCore, PropType.vtype, reduceCtorEq, reduceIte,
          true_or, or_true, false_or, or_false, or_self, if_true, if_false,
          PropType.required, PropType.enumVals, PropType.defVal,
          PropType.objExtra, Except.ok.injEq] at h
        subst h
        simp [GoodProp]
      | stringT =>
        simp only [GoodProp] at hgs
        obtain ⟨hex, _, _, _, _⟩ := hgs
        subst hex
        simp only [fromJsonDictCore, PropType.vtype, reduceCtorEq, reduceIte,
          true_or, or_true, false_or, or_false, or_self, if_true, if_false,
          PropType.required, PropType.enumVals, PropType.defVal,
          PropType.objExtra, PropType.minLength, PropType.maxLength,
          Except.ok.injEq] at h
        subst h
        simp [GoodProp]
      | objectT =>
        cases sop with
        | none =>
          simp only [GoodProp] at hgs
          exact hgs.2.2.2.2.2.2.elim
        | some l0 =>
          simp only [GoodProp] at hgs
          obtain ⟨hex, _, _, _, _, _, hgl0⟩ := hgs
          subst hex
          simp only [fromJsonDictCore, PropType.vtype, reduceIte] at h
          split at h
          · rename_i pents heq
            cases hs : schemaPropsFromJson pents none with
            | error e => rw [hs] at h; simp at h
            | ok props =>
              rw [hs] at h
              simp only [PropType.required, PropType.enumVals,
                PropType.defVal, PropType.objExtra, Except.ok.injEq] at h
              subst h
              have hmeas : 1 + dweight pents < n := by
                have := jlookup_rsum_le entries "properties" (.dict pents)
                  (Or.inl rfl) heq
                simp only [jweight] at this
                omega
              have hgp := (ih (1 + dweight pents) hmeas).2.2 pents props
                (le_refl _) hs
              simp [GoodProp, hgp]
          · simp only [PropType.required, PropType.enumVals, PropType.defVal,
              PropType.objExtra, PropType.objProps, Except.ok.injEq] at h
            subst h
            simp [GoodProp, hgl0]
      | arrayT =>
        simp only [GoodProp] at hgs
        obtain ⟨hex, _, _, _, _, _, hgit⟩ := hgs
        subst hex
        simp only [fromJsonDictCore, PropType.vtype, reduceCtorEq,
          reduceIte, Option.none_bind] at h
        split at h
        · rename_i v' heq
          cases hpv : propFromJson v' none with
          | error e => rw [hpv] at h; simp at h
          | ok q =>
            rw [hpv] at h
            simp only [PropType.required, PropType.enumVals, PropType.defVal,
              PropType.objExtra, Except.ok.injEq] at h
            subst h
            have hmeas : jweight v' < n := by
              have := jlookup_rsum_le entries "items" v' (Or.inr rfl) heq
              omega
            have hgq := (ih (jweight v') hmeas).1 v' q (le_refl _) hpv
            simp [GoodProp, GoodOptProp, hgq]
        · simp only [PropType.required, PropType.enumVals, PropType.defVal,
            PropType.objExtra, PropType.itemType, Except.ok.injEq] at h
          subst h
          simp [GoodProp, GoodOptProp, hgit]
    · intro entries props hw h
      cases entries with
      | nil =>
        simp only [schemaPropsFromJson, Except.ok.injEq] at h
        subst h
        simp [GoodProps]
      | cons kv rest =>
        obtain ⟨k, v⟩ := kv
        simp only [schemaPropsFromJson] at h
        cases hpv : propFromJson v none with
        | error e => rw [hpv] at h; simp at h
        | ok p0 =>
          rw [hpv] at h
          cases hrest : schemaPropsFromJson rest none with
          | error e => rw [hrest] at h; simp at h
          | ok props0 =>
            rw [hrest] at h
            simp only [Except.ok.injEq] at h
            subst h
            have hd : dweight ((k, v) :: rest) = 1 + jweight v + dweight rest := by
              simp [dweight]
            have hg0 := (ih (jweight v) (by omega)).1 v p0 (le_refl _) hpv
            have hg1 := (ih (1 + dweight rest) (by omega)).2.2 rest props0
              (le_refl _) hrest
            simp [GoodProps, hg0, hg1]

/-- C7: for every property definition (string shorthand, enum array, or
full object) that parses without a base schema, serializing the parsed
type in full-schema mode and parsing that serialization again yields a
property type semantically equal to the first parse: same kind, same
constraints (numeric bounds, length bounds, enum), same default and
required flag, recursively through nested object schemas and array item
types. -/
theorem c7_roundtrip (d : JsonValue) (p : PropType)
    (h : propFromJson d none = .ok p) :
    ∃ p2, propFromJson (PropType.toJsonFull p) none = .ok p2 ∧ semEq p2 p :=
  ⟨refresh p,
   parse_emit p ((good_bundle (jweight d)).1 d p (le_refl _) h),
   semEq_refresh p⟩

/-- Witness for C7: the string shorthand "integer" parses, and its
full-schema serialization re-parses to a semantically equal type. -/
theorem c7_witness :
    ∃ p2, propFromJson (PropType.toJsonFull (createSkeleton .intT)) none =
      .ok p2 ∧ semEq p2 (createSkeleton .intT) :=
  c7_roundtrip (.string "integer") (createSkeleton .intT)
    (by simp [propFromJson, createPropType, createPropTypeFuel,
      splitAtFirstDot, splitFirst, typeFromString, fromJsonDict,
      fromJsonDictCore, jlookup, ownKeysOf, hasKey, isListAt, isDictAt,
      isBoolAt, createSkeleton, PropType.vtype, PropType.required,
      PropType.enumVals, PropType.defVal, PropType.objExtra,
      PropType.minimum, PropType.maximum])

theorem c3_parse_delay_base :
    propFromJson (.dict [("maximum", .integer 100)]) none = .ok c3DelayBase := by
  simp [propFromJson, detectObjectType, hasKey, jlookup, isDoubleAt,
    baseIsDouble, typeToString, createPropType, createPropTypeFuel,
    splitAtFirstDot, splitFirst, typeFromString, fromJsonDict,
    fromJsonDictCore, ownKeysOf, isListAt, isDictAt, isBoolAt,
    createSkeleton, PropType.vtype, PropType.required, PropType.enumVals,
    PropType.defVal, PropType.objExtra, PropType.minimum, PropType.maximum,
    c3DelayBase]

theorem c3_load_base :
    emptyCommandDictionary.loadCommands c3BaseTree none = .ok c3DictBase := by
  simp [CommandDictionary.loadCommands, loadPackages, loadPackageCommands,
    loadOneCommand, parseCommandDef, parseSection, parseVisibilitySection,
    parseRoleSection, jlookup, schemaPropsFromJson, c3_parse_delay_base,
    c3BaseTree, emptyCommandDictionary, c3DictBase, c3CdBase, bind,
    Except.bind, pure, Except.pure, CommandDictionary.findCommand, alookup,
    firstCharIs, visibilityAll, emptySchema]

theorem c3_basedict_eq : c3BaseDict = c3DictBase := by
  simp [c3BaseDict, c3_load_base, Except.toOption, Option.getD]

theorem c3_parse_delay_over :
    propFromJson (.dict [("minimum", .integer 10)]) (some c3DelayBase) =
      .ok c3DelayOver := by
  simp [propFromJson, detectObjectType, hasKey, jlookup, isDoubleAt,
    baseIsDouble, typeToString, createPropType, createPropTypeFuel,
    splitAtFirstDot, splitFirst, typeFromString, fromJsonDict,
    fromJsonDictCore, ownKeysOf, isListAt, isDictAt, isBoolAt,
    createSkeleton, PropType.vtype, PropType.required, PropType.enumVals,
    PropType.defVal, PropType.objExtra, PropType.minimum, PropType.maximum,
    c3DelayBase, c3DelayOver]

theorem c3_load_over :
    emptyCommandDictionary.loadCommands c3Overlay (some c3DictBase) =
      .ok c3DictOver := by
  simp [CommandDictionary.loadCommands, loadPackages, loadPackageCommands,
    loadOneCommand, parseCommandDef, parseSection, parseVisibilitySection,
    parseRoleSection, jlookup, schemaPropsFromJson, c3_parse_delay_over,
    c3Overlay, emptyCommandDictionary, c3DictBase, c3CdBase, c3DictOver,
    c3CdOver, bind, Except.bind, pure, Except.pure,
    CommandDictionary.findCommand, alookup, firstCharIs, visibilityAll,
    emptySchema, ObjectSchema.getProp, plookup, ObjectSchema.clone,
    cloneProps]

theorem c3_dict_eq : c3Dict = c3DictOver := by
  simp [c3Dict, c3_basedict_eq, c3_load_over, Except.toOption, Option.getD]

theorem c3_delay_json :
    PropType.toJsonFull c3DelayOver =
      .dict [("type", .string "integer"), ("minimum", .integer 10),
        ("maximum", .integer 100)] := by
  simp [PropType.toJsonFull, toJsonFullFields, optE, c3DelayOver,
    PropType.vtype, typeToString]

theorem c3_params_json :
    ObjectSchema.toJson ⟨[("delay", c3DelayOver)], false⟩ true =
      .dict [("delay", .dict [("type", .string "integer"),
        ("minimum", .integer 10), ("maximum", .integer 100)])] := by
  simp [ObjectSchema.toJson, propsToJsonFull, c3_delay_json]

theorem c3_cd_json :
    commandDefToJson c3CdOver true =
      .dict [("parameters", .dict [("delay", .dict
          [("type", .string "integer"), ("minimum", .integer 10),
           ("maximum", .integer 100)])]),
        ("minimalRole", .string "user")] := by
  simp [commandDefToJson, c3CdOver, roleToString, c3_params_json]

theorem c3_grouped :
    c3DictOver.getCommandsAsJson (fun _ => true) true =
      .dict [("base", .dict [("reboot", .dict
        [("parameters", .dict [("delay", .dict
            [("type", .string "integer"), ("minimum", .integer 10),
             ("maximum", .integer 100)])]),
         ("minimalRole", .string "user")])])] := by
  simp [CommandDictionary.getCommandsAsJson, commandsToGrouped,
    insertGrouped, splitFirst, c3DictOver, c3_cd_json]

theorem c3_serialize :
    jpath (c3DictOver.getCommandsAsJson (fun _ => true) true)
      ["base", "reboot", "parameters", "delay"] =
      some (.dict [("type", .string "integer"), ("minimum", .integer 10),
        ("maximum", .integer 100)]) := by
  rw [c3_grouped]
  rfl

/-- C3: loading the base dictionary whose base.reboot declares delay with
maximum 100, then loading against it an overlay redefining delay with
minimum 10, succeeds, and the full-schema serialization of
base.reboot.parameters.delay is exactly type integer, minimum 10 (the
override), maximum 100 (inherited from the base). -/
theorem c3_override_merges_bounds :
    (emptyCommandDictionary.loadCommands c3BaseTree none).isOk = true ∧
    (emptyCommandDictionary.loadCommands c3Overlay (some c3BaseDict)).isOk =
      true ∧
    jpath (c3Dict.getCommandsAsJson (fun _ => true) true)
      ["base", "reboot", "parameters", "delay"] =
      some (.dict [("type", .string "integer"), ("minimum", .integer 10),
        ("maximum", .integer 100)]) := by
  refine ⟨?_, ?_, ?_⟩
  · rw [c3_load_base]
    rfl
  · rw [c3_basedict_eq, c3_load_over]
    rfl
  · rw [c3_dict_eq, c3_serialize]

end Weave
